import Mathlib

/-!
# Verification of the emergency-department discrete-event simulation

Shallow embedding of `src/simulation/patient.py`, `src/simulation/resources.py`
and `src/simulation/emergency_department.py`.

Simulated time and durations are modelled as rationals (`ℚ`); the Python code
uses floats but performs only additions, subtractions and comparisons on them,
so exact rational arithmetic is a faithful model of the control flow.

Random draws (`np.random.exponential`, `np.random.choice`,
`np.random.lognormal`, `np.random.random`) are modelled as explicit oracle
parameters of the operations that consume them: an arrival carries the drawn
priority and the drawn log-normal treatment duration (log-normal samples are
`exp` of a normal sample and hence strictly positive, which is recorded as a
validity side condition), and a deterioration check carries the stream of
Boolean outcomes of the `np.random.random() < 0.15` comparisons, consumed in
draw order.
-/

/-- Triage priority levels, from `patient.py` (`class Priority(Enum)`):
1 = most urgent, 5 = least urgent. -/
inductive Priority where
  | P1_RESUSCITATION
  | P2_EMERGENT
  | P3_URGENT
  | P4_LESS_URGENT
  | P5_NON_URGENT
deriving DecidableEq, Repr

/-- Numeric value of a priority level (the `Enum` value in `patient.py`). -/
def Priority.value : Priority → Nat
  | .P1_RESUSCITATION => 1
  | .P2_EMERGENT => 2
  | .P3_URGENT => 3
  | .P4_LESS_URGENT => 4
  | .P5_NON_URGENT => 5

/-- `Priority(n)` for `n ∈ {1,…,5}`: inverse of `Priority.value`, used by
`Patient.deteriorate` (`Priority(new_priority_value)` in the source). -/
def Priority.ofValue : Nat → Priority
  | 1 => .P1_RESUSCITATION
  | 2 => .P2_EMERGENT
  | 3 => .P3_URGENT
  | 4 => .P4_LESS_URGENT
  | _ => .P5_NON_URGENT

/-- `Priority.name` of the Python `Enum` member, used by `get_results`. -/
def Priority.name : Priority → String
  | .P1_RESUSCITATION => "P1_RESUSCITATION"
  | .P2_EMERGENT => "P2_EMERGENT"
  | .P3_URGENT => "P3_URGENT"
  | .P4_LESS_URGENT => "P4_LESS_URGENT"
  | .P5_NON_URGENT => "P5_NON_URGENT"

/-- A patient record, from `patient.py` (`class Patient` together with its
`PatientState` dataclass; `state.current_priority` always mirrors
`self.priority` — both are updated together by `deteriorate` — so a single
`priority` field represents both). `id` is assigned from the class-level
counter `Patient._id_counter`, threaded explicitly through the embedding. -/
structure Patient where
  id : Nat
  arrival_time : ℚ
  priority : Priority
  initial_priority : Priority
  treatment_duration : ℚ
  start_treatment_time : Option ℚ := none
  end_treatment_time : Option ℚ := none
  assigned_doctor : Option Nat := none
  assigned_bed : Option Nat := none
deriving DecidableEq, Repr

/-- `Patient.__init__`: increments the class counter, takes the fresh id, and
stores arrival time and priority. The log-normal treatment-duration draw is
supplied as the oracle argument `dur`. Returns the patient together with the
updated class counter. -/
def Patient.create (counter : Nat) (arrival_time : ℚ) (initial_priority : Priority)
    (dur : ℚ) : Patient × Nat :=
  (⟨counter + 1, arrival_time, initial_priority, initial_priority, dur,
    none, none, none, none⟩, counter + 1)

/-- `Patient.get_max_wait_time`: recommended maximum wait (minutes) for the
patient's current priority. -/
def Patient.get_max_wait_time (p : Patient) : ℚ :=
  match p.priority with
  | .P1_RESUSCITATION => 0
  | .P2_EMERGENT => 15
  | .P3_URGENT => 30
  | .P4_LESS_URGENT => 60
  | .P5_NON_URGENT => 120

/-- `Patient.get_wait_time`: once treatment has started the wait is frozen at
`start_treatment_time - arrival_time`; before that it is
`current_time - arrival_time`. -/
def Patient.get_wait_time (p : Patient) (current_time : ℚ) : ℚ :=
  match p.start_treatment_time with
  | some s => s - p.arrival_time
  | none => current_time - p.arrival_time

/-- `Patient.deteriorate`: if the priority value is above 1, decrement it by
one (both `self.priority` and `state.current_priority` in the source);
otherwise do nothing. -/
def Patient.deteriorate (p : Patient) : Patient :=
  if p.priority.value > 1 then
    { p with priority := Priority.ofValue (p.priority.value - 1) }
  else
    p

/-- `Patient.start_treatment`: record the treatment start time and the
assigned resources. -/
def Patient.start_treatment (p : Patient) (current_time : ℚ)
    (doctor_id bed_id : Nat) : Patient :=
  { p with start_treatment_time := some current_time,
           assigned_doctor := some doctor_id,
           assigned_bed := some bed_id }

/-- `Patient.end_treatment`: record the treatment end time. -/
def Patient.end_treatment (p : Patient) (current_time : ℚ) : Patient :=
  { p with end_treatment_time := some current_time }

/-- A doctor record, from `resources.py` (`@dataclass class Doctor`). -/
structure Doctor where
  id : Nat
  name : String
  is_available : Bool := true
  current_patient : Option Nat := none
  total_patients_treated : Nat := 0
  total_treatment_time : ℚ := 0
deriving DecidableEq, Repr

/-- `Doctor.assign_patient`: mark busy with the given patient. Note the
source does not check `is_available` here, nor does any caller. -/
def Doctor.assign_patient (d : Doctor) (patient_id : Nat) : Doctor :=
  { d with is_available := false,
           current_patient := some patient_id,
           total_patients_treated := d.total_patients_treated + 1 }

/-- `Doctor.release_patient`: mark available again and accumulate busy time. -/
def Doctor.release_patient (d : Doctor) (treatment_time : ℚ) : Doctor :=
  { d with is_available := true,
           current_patient := none,
           total_treatment_time := d.total_treatment_time + treatment_time }

/-- `Doctor.get_utilization_rate`. -/
def Doctor.get_utilization_rate (d : Doctor) (total_time : ℚ) : ℚ :=
  if total_time = 0 then 0 else d.total_treatment_time / total_time * 100

/-- A bed record, from `resources.py` (`@dataclass class Bed`). -/
structure Bed where
  id : Nat
  is_available : Bool := true
  current_patient : Option Nat := none
  total_occupancy_time : ℚ := 0
deriving DecidableEq, Repr

/-- `Bed.assign_patient`: mark occupied (availability not checked, as in the
source). -/
def Bed.assign_patient (b : Bed) (patient_id : Nat) : Bed :=
  { b with is_available := false, current_patient := some patient_id }

/-- `Bed.release_patient`. -/
def Bed.release_patient (b : Bed) (occupancy_time : ℚ) : Bed :=
  { b with is_available := true,
           current_patient := none,
           total_occupancy_time := b.total_occupancy_time + occupancy_time }

/-- `Bed.get_occupancy_rate`. -/
def Bed.get_occupancy_rate (b : Bed) (total_time : ℚ) : ℚ :=
  if total_time = 0 then 0 else b.total_occupancy_time / total_time * 100

/-- `EmergencyResources.get_doctor_by_id`: first doctor in the pool with the
given id, `none` if absent. Availability is NOT consulted. -/
def get_doctor_by_id : List Doctor → Nat → Option Doctor
  | [], _ => none
  | d :: rest, did => if d.id = did then some d else get_doctor_by_id rest did

/-- `EmergencyResources.get_bed_by_id`. -/
def get_bed_by_id : List Bed → Nat → Option Bed
  | [], _ => none
  | b :: rest, bid => if b.id = bid then some b else get_bed_by_id rest bid

/-- In-place mutation of the first doctor with the given id (the object
returned by `get_doctor_by_id` is mutated in the Python source; here the list
entry is replaced). -/
def updateDoctorById : List Doctor → Nat → (Doctor → Doctor) → List Doctor
  | [], _, _ => []
  | d :: rest, did, f =>
      if d.id = did then f d :: rest else d :: updateDoctorById rest did f

/-- In-place mutation of the first bed with the given id. -/
def updateBedById : List Bed → Nat → (Bed → Bed) → List Bed
  | [], _, _ => []
  | b :: rest, bid, f =>
      if b.id = bid then f b :: rest else b :: updateBedById rest bid f

/-- `list.remove` keyed by patient id: removes the first patient with the
given id (in the source the removed element is always present). -/
def removeById : List Patient → Nat → List Patient
  | [], _ => []
  | p :: rest, pid => if p.id = pid then rest else p :: removeById rest pid

/-- Find and remove the first patient with the given id, returning it
together with the remaining list. -/
def extractById : List Patient → Nat → Option (Patient × List Patient)
  | [], _ => none
  | p :: rest, pid =>
      if p.id = pid then some (p, rest)
      else match extractById rest pid with
        | some (q, rest2) => some (q, p :: rest2)
        | none => none

/-- The per-priority waiting queues
(`self.waiting_patients: Dict[Priority, List[Patient]]`), built with one
entry per `Priority` member in enum order P1..P5. -/
structure WaitingQueues where
  p1 : List Patient := []
  p2 : List Patient := []
  p3 : List Patient := []
  p4 : List Patient := []
  p5 : List Patient := []
deriving DecidableEq, Repr

/-- `self.waiting_patients[priority]`. -/
def WaitingQueues.get (w : WaitingQueues) : Priority → List Patient
  | .P1_RESUSCITATION => w.p1
  | .P2_EMERGENT => w.p2
  | .P3_URGENT => w.p3
  | .P4_LESS_URGENT => w.p4
  | .P5_NON_URGENT => w.p5

/-- Replace one priority's queue. -/
def WaitingQueues.set (w : WaitingQueues) (pr : Priority) (l : List Patient) :
    WaitingQueues :=
  match pr with
  | .P1_RESUSCITATION => { w with p1 := l }
  | .P2_EMERGENT => { w with p2 := l }
  | .P3_URGENT => { w with p3 := l }
  | .P4_LESS_URGENT => { w with p4 := l }
  | .P5_NON_URGENT => { w with p5 := l }

/-- Update one priority's queue in place. -/
def WaitingQueues.update (w : WaitingQueues) (pr : Priority)
    (f : List Patient → List Patient) : WaitingQueues :=
  w.set pr (f (w.get pr))

/-- All waiting patients flattened in dict iteration order P1..P5
(`for priority_queue in self.waiting_patients.values()`). -/
def WaitingQueues.flatten (w : WaitingQueues) : List Patient :=
  w.p1 ++ w.p2 ++ w.p3 ++ w.p4 ++ w.p5

/-- Ids of all waiting patients, in queue order. -/
def WaitingQueues.ids (w : WaitingQueues) : List Nat :=
  w.flatten.map (·.id)

/-- `sum(len(queue) for queue in self.waiting_patients.values())`. -/
def WaitingQueues.count (w : WaitingQueues) : Nat :=
  w.p1.length + w.p2.length + w.p3.length + w.p4.length + w.p5.length

/-- Search the queues in dict order P1..P5 for the first patient with the
given id; remove it (`priority_queue.remove(p)`) and return it with the
updated queues (the search loop of `_assign_patient`). -/
def WaitingQueues.extract (w : WaitingQueues) (pid : Nat) :
    Option (Patient × WaitingQueues) :=
  match extractById w.p1 pid with
  | some (p, l) => some (p, { w with p1 := l })
  | none =>
  match extractById w.p2 pid with
  | some (p, l) => some (p, { w with p2 := l })
  | none =>
  match extractById w.p3 pid with
  | some (p, l) => some (p, { w with p3 := l })
  | none =>
  match extractById w.p4 pid with
  | some (p, l) => some (p, { w with p4 := l })
  | none =>
  match extractById w.p5 pid with
  | some (p, l) => some (p, { w with p5 := l })
  | none => none

/-- One sampled point of `collect_metrics`. -/
structure MetricsPoint where
  time : ℚ
  waiting_patients : Nat
  avg_wait_time : ℚ
  treating_patients : Nat
  discharged_patients : Nat
  doctor_utilization : ℚ
  bed_occupancy : ℚ
deriving DecidableEq, Repr

/-- The full mutable state of one `EmergencyDepartment` instance, plus the
class-level `Patient._id_counter` (`id_counter`) and the set of scheduled
treatment-completion events (`pending`: due time and patient id — in the
source these live inside the SimPy environment as the pending
`_treatment_process` timeouts). -/
structure EDState where
  now : ℚ
  arrival_rate : ℚ
  optimization_interval : ℚ
  waiting : WaitingQueues
  treating : List Patient
  discharged : List Patient
  doctors : List Doctor
  beds : List Bed
  metrics : List MetricsPoint
  total_arrivals : Nat
  total_treated : Nat
  total_deteriorations : Nat
  id_counter : Nat
  pending : List (ℚ × Nat)
deriving DecidableEq, Repr

/-- `EmergencyDepartment.__init__` (with `EmergencyResources.__init__`
inlined): the state fields the simulation uses, assuming construction
succeeds. `EmergencyResources.__init__` additionally constructs
`simpy.Resource(env, capacity=num_doctors)` and
`simpy.Resource(env, capacity=num_beds)`; those two SimPy objects are
never read again anywhere in the code, but `simpy.Resource.__init__`
raises `ValueError` when its capacity is not positive, so construction
fails for a zero resource count — that library check is modelled by
`edInitE` below, which wraps this state builder. Neither constructor
contains any validation of its own: in particular `arrival_rate` and
`optimization_interval` are stored unchecked, and no ConfigurationError
class exists anywhere in the code. -/
def edInit (num_doctors num_beds : Nat) (arrival_rate optimization_interval : ℚ)
    (id_counter : Nat) : EDState where
  now := 0
  arrival_rate := arrival_rate
  optimization_interval := optimization_interval
  waiting := {}
  treating := []
  discharged := []
  doctors := (List.range num_doctors).map
    (fun i => { id := i, name := "Dr. ".push (Char.ofNat (65 + i)) })
  beds := (List.range num_beds).map (fun i => { id := i })
  metrics := []
  total_arrivals := 0
  total_treated := 0
  total_deteriorations := 0
  id_counter := id_counter
  pending := []

/-- Body of one firing of `patient_arrival_process` (after the exponential
timeout): create a patient at the current time with the drawn priority and
drawn treatment duration, append it to its priority queue, count the
arrival. -/
def arrivalStep (st : EDState) (priority : Priority) (dur : ℚ) : EDState :=
  let pc := Patient.create st.id_counter st.now priority dur
  { st with waiting := st.waiting.update priority (· ++ [pc.1]),
            total_arrivals := st.total_arrivals + 1,
            id_counter := pc.2 }

/-- One iteration of the inner loop of `deterioration_process` for patient
`p`: if the wait exceeds twice the (current-priority) maximum recommended
wait, consume one `np.random.random() < 0.15` draw (coin index `k`); on a
`true` coin the patient deteriorates, and if that changed the priority it is
removed from its old queue, appended to its new one, and the global counter
is incremented. -/
def deterStep (coins : Nat → Bool) (acc : EDState × Nat) (p : Patient) :
    EDState × Nat :=
  let st := acc.1
  let k := acc.2
  let wait_time := p.get_wait_time st.now
  let max_wait := p.get_max_wait_time
  if wait_time > max_wait * 2 then
    if coins k then
      let p2 := p.deteriorate
      if p2.priority ≠ p.priority then
        ({ st with
            waiting := (st.waiting.update p.priority (removeById · p.id)).update
              p2.priority (· ++ [p2]),
            total_deteriorations := st.total_deteriorations + 1 }, k + 1)
      else (st, k + 1)
    else (st, k + 1)
  else acc

/-- The loop `for patient in list(self.waiting_patients[priority])`: iterate
over a snapshot of the queue taken when the loop starts, updating the live
state. -/
def deterPass (coins : Nat → Bool) (pr : Priority) (acc : EDState × Nat) :
    EDState × Nat :=
  (acc.1.waiting.get pr).foldl (deterStep coins) acc

/-- Body of one firing of `deterioration_process`: only the P3 and then the
P2 queue are examined (`for priority in [Priority.P3_URGENT,
Priority.P2_EMERGENT]`). -/
def deteriorationStep (st : EDState) (coins : Nat → Bool) : EDState :=
  (deterPass coins .P2_EMERGENT (deterPass coins .P3_URGENT (st, 0))).1

/-- `EmergencyDepartment._assign_patient`: find the patient across the
queues (removing it during the search); if not found, return unchanged; then
look up doctor and bed BY ID ONLY (availability is not checked); if either
id is absent from the pool, return with the patient already removed (the
patient is dropped); otherwise record the treatment start, mark both
resources busy, append the patient to the treatment list and schedule the
completion after `treatment_duration`. -/
def assignPatient (st : EDState) (patient_id doctor_id bed_id : Nat) : EDState :=
  match st.waiting.extract patient_id with
  | none => st
  | some (p, w) =>
    match get_doctor_by_id st.doctors doctor_id, get_bed_by_id st.beds bed_id with
    | some _, some _ =>
        let p2 := p.start_treatment st.now doctor_id bed_id
        { st with
            waiting := w,
            doctors := updateDoctorById st.doctors doctor_id
              (fun d => d.assign_patient patient_id),
            beds := updateBedById st.beds bed_id
              (fun b => b.assign_patient patient_id),
            treating := st.treating ++ [p2],
            pending := st.pending ++ [(st.now + p.treatment_duration, p.id)] }
    | _, _ => { st with waiting := w }

/-- Body of one firing of `optimization_process` with the optimizer present:
the optimizer either raises (`Except.error`, caught: no state change this
cycle) or returns a list of `(patient_id, doctor_id, bed_id)` triples which
are applied left to right. -/
def optimizationStep (st : EDState)
    (result : Except String (List (Nat × Nat × Nat))) : EDState :=
  match result with
  | .error _ => st
  | .ok triples =>
      triples.foldl (fun s tr => assignPatient s tr.1 tr.2.1 tr.2.2) st

/-- Body of `_treatment_process` after its timeout fires: release the
assigned doctor and bed (if found by id), stamp the end-treatment time, move
the patient from the treatment list to the discharged list, count the
treatment. -/
def treatmentCompleteStep (st : EDState) (pid : Nat) : EDState :=
  match extractById st.treating pid with
  | none => st
  | some (p, treating2) =>
    let doctors2 := match p.assigned_doctor with
      | some did =>
          if (get_doctor_by_id st.doctors did).isSome then
            updateDoctorById st.doctors did
              (fun d => d.release_patient p.treatment_duration)
          else st.doctors
      | none => st.doctors
    let beds2 := match p.assigned_bed with
      | some bid =>
          if (get_bed_by_id st.beds bid).isSome then
            updateBedById st.beds bid
              (fun b => b.release_patient p.treatment_duration)
          else st.beds
      | none => st.beds
    { st with
        doctors := doctors2,
        beds := beds2,
        treating := treating2,
        discharged := st.discharged ++ [p.end_treatment st.now],
        total_treated := st.total_treated + 1 }

/-- `np.mean` over a list, with the empty case mapped to `0` (the source
only takes a mean of an empty list through `np.mean(wait_times) if
wait_times else 0`, which is literally `0`, or over the resource lists,
which are nonempty in every configuration the claims touch). -/
def npMean (l : List ℚ) : ℚ :=
  if l = [] then 0 else l.sum / l.length

/-- `EmergencyResources.get_statistics` flattened to one record. -/
structure ResourceStatistics where
  doctors_count : Nat
  doctors_available : Nat
  doctors_utilization_rates : List ℚ
  doctors_total_patients_treated : Nat
  beds_count : Nat
  beds_available : Nat
  beds_occupancy_rates : List ℚ
deriving DecidableEq, Repr

/-- `EmergencyResources.get_statistics` with `total_time = self.env.now`. -/
def getStatistics (st : EDState) : ResourceStatistics where
  doctors_count := st.doctors.length
  doctors_available := (st.doctors.filter (·.is_available)).length
  doctors_utilization_rates := st.doctors.map (·.get_utilization_rate st.now)
  doctors_total_patients_treated :=
    (st.doctors.map (·.total_patients_treated)).sum
  beds_count := st.beds.length
  beds_available := (st.beds.filter (·.is_available)).length
  beds_occupancy_rates := st.beds.map (·.get_occupancy_rate st.now)

/-- Body of one firing of `collect_metrics`: append one sampled point. -/
def collectMetricsStep (st : EDState) : EDState :=
  let wait_times := (st.waiting.flatten).map (·.get_wait_time st.now)
  let stats := getStatistics st
  { st with metrics := st.metrics ++ [{
      time := st.now,
      waiting_patients := st.waiting.count,
      avg_wait_time := npMean wait_times,
      treating_patients := st.treating.length,
      discharged_patients := st.discharged.length,
      doctor_utilization := npMean stats.doctors_utilization_rates,
      bed_occupancy := npMean stats.beds_occupancy_rates }] }

/-- One fired event of the run, with its firing time and the random draws it
consumes. Every event a SimPy run of the source can fire is one of these:
the inter-arrival, check-interval, optimization-interval and sampling
timeouts determine the firing times, and the optimizer (an arbitrary Python
callable) determines the `optimize` payload, so quantifying over lists of
`Op`s with monotone firing times covers every run of the source. -/
inductive Op where
  | arrive (t : ℚ) (priority : Priority) (dur : ℚ)
  | deteriorationCheck (t : ℚ) (coins : Nat → Bool)
  | optimize (t : ℚ) (result : Except String (List (Nat × Nat × Nat)))
  | treatmentComplete (t : ℚ) (pid : Nat)
  | collectMetrics (t : ℚ)

/-- The firing time of an event. -/
def Op.time : Op → ℚ
  | .arrive t _ _ => t
  | .deteriorationCheck t _ => t
  | .optimize t _ => t
  | .treatmentComplete t _ => t
  | .collectMetrics t => t

/-- Validity of firing an event in a state: simulated time never decreases; a
log-normal treatment-duration draw is strictly positive (it is `exp` of a
normal draw); a treatment completion only fires for a scheduled pending event
whose patient is in treatment (in SimPy the completion process literally
holds that patient). -/
def opValid (st : EDState) : Op → Prop
  | .arrive t _ dur => st.now ≤ t ∧ 0 < dur
  | .deteriorationCheck t _ => st.now ≤ t
  | .optimize t _ => st.now ≤ t
  | .treatmentComplete t pid =>
      st.now ≤ t ∧ (t, pid) ∈ st.pending ∧ pid ∈ st.treating.map (·.id)
  | .collectMetrics t => st.now ≤ t

instance (st : EDState) (op : Op) : Decidable (opValid st op) := by
  cases op <;> simp only [opValid] <;> infer_instance

/-- Consume a scheduled completion event: remove the first matching
`(due_time, patient_id)` entry. -/
def erasePending : List (ℚ × Nat) → ℚ × Nat → List (ℚ × Nat)
  | [], _ => []
  | e :: rest, x => if e = x then rest else e :: erasePending rest x

/-- Fire one event: advance the clock to its due time (SimPy advances
`env.now` to the event's scheduled time before resuming the process), then
run the corresponding process body. -/
def applyOp (st : EDState) : Op → EDState
  | .arrive t pr dur => arrivalStep { st with now := t } pr dur
  | .deteriorationCheck t coins => deteriorationStep { st with now := t } coins
  | .optimize t result => optimizationStep { st with now := t } result
  | .treatmentComplete t pid =>
      treatmentCompleteStep
        { st with now := t, pending := erasePending st.pending (t, pid) } pid
  | .collectMetrics t => collectMetricsStep { st with now := t }

/-- Run a sequence of events. -/
def runOps (st : EDState) : List Op → EDState :=
  List.foldl applyOp st

/-- Every event of the sequence is valid in the state it fires from. -/
def ValidTrace : EDState → List Op → Prop
  | _, [] => True
  | st, op :: ops => opValid st op ∧ ValidTrace (applyOp st op) ops

instance : (st : EDState) → (ops : List Op) → Decidable (ValidTrace st ops)
  | _, [] => .isTrue trivial
  | st, op :: ops =>
      have : Decidable (ValidTrace (applyOp st op) ops) :=
        instDecidableValidTrace (applyOp st op) ops
      inferInstanceAs (Decidable (_ ∧ _))

/-- One row of `discharged_data` in `get_results`. -/
structure DischargedRecord where
  id : Nat
  initial_priority : String
  final_priority : String
  arrival_time : ℚ
  start_treatment : Option ℚ
  end_treatment : Option ℚ
  wait_time : ℚ
  treatment_duration : ℚ
deriving DecidableEq, Repr

/-- The record returned by `EmergencyDepartment.get_results`. -/
structure SimulationResult where
  metrics : List MetricsPoint
  total_arrivals : Nat
  total_treated : Nat
  total_deteriorations : Nat
  discharged_patients : List DischargedRecord
  resource_stats : ResourceStatistics
deriving DecidableEq, Repr

/-- `EmergencyDepartment.get_results`. The argument of `get_wait_time` is
`p.state.start_treatment_time or self.env.now`: Python's `or` falls through
to `env.now` both when the start time is `None` and when it is `0.0`
(falsy); `get_wait_time` ignores its argument for a patient whose start time
is set, so this does not change the value. -/
def getResults (st : EDState) : SimulationResult where
  metrics := st.metrics
  total_arrivals := st.total_arrivals
  total_treated := st.total_treated
  total_deteriorations := st.total_deteriorations
  discharged_patients := st.discharged.map (fun p =>
    { id := p.id,
      initial_priority := p.initial_priority.name,
      final_priority := p.priority.name,
      arrival_time := p.arrival_time,
      start_treatment := p.start_treatment_time,
      end_treatment := p.end_treatment_time,
      wait_time := p.get_wait_time
        (match p.start_treatment_time with
          | some s => if s = 0 then st.now else s
          | none => st.now),
      treatment_duration := p.treatment_duration })
  resource_stats := getStatistics st

/-- Patient ids of a list of patients, in order. -/
def qIds (l : List Patient) : List Nat := l.map (·.id)

/-- The multiset of all waiting patient ids. -/
def WaitingQueues.idsM (w : WaitingQueues) : Multiset Nat :=
  (qIds w.p1 : Multiset Nat) + (qIds w.p2 : Multiset Nat) +
  (qIds w.p3 : Multiset Nat) + (qIds w.p4 : Multiset Nat) +
  (qIds w.p5 : Multiset Nat)

/-- Well-formedness of the waiting queues: no patient id occurs twice across
the queues, and every patient sits in the queue of its own current priority. -/
def WfWaiting (w : WaitingQueues) : Prop :=
  w.idsM.Nodup ∧ ∀ pr : Priority, ∀ p ∈ w.get pr, p.priority = pr

/-- The conservation equation of the spec:
waiting + in-treatment + discharged = total arrivals. -/
def Conserved (st : EDState) : Prop :=
  st.waiting.count + st.treating.length + st.discharged.length =
    st.total_arrivals

/-- Invariant bundle for the conservation proof. -/
structure StateWF (st : EDState) : Prop where
  conserve : Conserved st
  wf : WfWaiting st.waiting
  bounded : ∀ i ∈ st.waiting.idsM, i ≤ st.id_counter

/-- An event is benign for conservation when every doctor id and bed id it
names exists in the (fixed) resource pools. A triple with a nonexistent
doctor or bed id is exactly the case in which `_assign_patient` drops a
waiting patient. -/
def GoodOp (docIds bedIds : List Nat) : Op → Prop
  | .optimize _ (.ok triples) =>
      ∀ tr ∈ triples, tr.2.1 ∈ docIds ∧ tr.2.2 ∈ bedIds
  | _ => True

/-- Timestamp discipline: waiting patients have no treatment timestamps and
arrived no later than now; treating patients have exactly a start time,
between arrival and now; discharged patients have both timestamps, with
`arrival ≤ start ≤ end`. -/
def TimesOK (st : EDState) : Prop :=
  (∀ p ∈ st.waiting.flatten,
      p.start_treatment_time = none ∧ p.end_treatment_time = none ∧
      p.arrival_time ≤ st.now) ∧
  (∀ p ∈ st.treating, ∃ s,
      p.start_treatment_time = some s ∧ p.end_treatment_time = none ∧
      p.arrival_time ≤ s ∧ s ≤ st.now) ∧
  (∀ p ∈ st.discharged, ∃ s e,
      p.start_treatment_time = some s ∧ p.end_treatment_time = some e ∧
      p.arrival_time ≤ s ∧ s ≤ e)

/-- The duplicate-doctor scenario of the spec: 3 waiting patients, one
doctor, one bed; the policy names doctor 0 and bed 0 in both triples. -/
def c1ops : List Op :=
  [.arrive 10 .P3_URGENT 60, .arrive 11 .P3_URGENT 60, .arrive 12 .P3_URGENT 60,
   .optimize 30 (.ok [(1, 0, 0), (2, 0, 0)])]

/-- Final state of the duplicate-doctor scenario. -/
def c1final : EDState := runOps (edInit 1 1 6 30 0) c1ops

/-- A run in which the policy returns a triple with a waiting patient but a
nonexistent doctor id (5, in a pool with the single doctor id 0). -/
def c2ops : List Op :=
  [.arrive 10 .P3_URGENT 60, .optimize 30 (.ok [(1, 5, 0)]),
   .collectMetrics 40]

/-- Final state of the lost-patient run. -/
def c2final : EDState := runOps (edInit 1 1 6 30 0) c2ops

/-- A P4 patient with an enormous wait, through one deterioration check in
which every escalation coin comes up `true`. -/
def c4ops : List Op :=
  [.arrive 0 .P4_LESS_URGENT 45, .deteriorationCheck 1000 (fun _ => true)]

/-- Final state of the neglected-P4 run. -/
def c4final : EDState := runOps (edInit 1 1 6 30 0) c4ops

/-- A policy that is a pure function of the snapshot: assign the first
waiting patient to doctor 0 and bed 0. -/
def firstWaitingTriple (st : EDState) : List (Nat × Nat × Nat) :=
  match st.waiting.flatten with
  | [] => []
  | p :: _ => [(p.id, 0, 0)]

/-- One full replication (arrival at t=10, optimization at t=30, treatment
completion at t=120) starting from class counter `c0`: the ops are those a
seeded run produces, with the policy output computed from the snapshot the
optimization cycle sees. -/
def c5ops (c0 : Nat) : List Op :=
  [.arrive 10 .P2_EMERGENT 90,
   .optimize 30 (.ok (firstWaitingTriple
      (applyOp (edInit 1 1 6 30 c0) (.arrive 10 .P2_EMERGENT 90)))),
   .treatmentComplete 120 (c0 + 1)]

/-- Final state of the replication started at class counter `c0`. -/
def c5run (c0 : Nat) : EDState := runOps (edInit 1 1 6 30 c0) (c5ops c0)

/-- An id-SENSITIVE snapshot policy: assign patient id 1 (to doctor 0 and
bed 0) when it is waiting, otherwise assign nobody. A valid policy is an
arbitrary Python callable, so nothing stops it from reading the patient
ids in the snapshot; such a policy makes back-to-back replications diverge
beyond the ids. -/
def pickPatientOne (st : EDState) : List (Nat × Nat × Nat) :=
  if 1 ∈ st.waiting.ids then [(1, 0, 0)] else []

/-- A replication under the id-sensitive policy, started at class counter
`c0`: one arrival, then one optimization cycle whose payload is the policy
output on the snapshot that cycle sees. -/
def c5sensOps (c0 : Nat) : List Op :=
  [.arrive 10 .P2_EMERGENT 90,
   .optimize 30 (.ok (pickPatientOne
      (applyOp (edInit 1 1 6 30 c0) (.arrive 10 .P2_EMERGENT 90))))]

/-- Final state of the id-sensitive replication started at counter `c0`. -/
def c5sensRun (c0 : Nat) : EDState := runOps (edInit 1 1 6 30 c0) (c5sensOps c0)

/-- Blank out the patient identifiers of a result record (used to compare
two replications up to patient ids). -/
def SimulationResult.eraseIds (r : SimulationResult) : SimulationResult :=
  { r with discharged_patients :=
      r.discharged_patients.map (fun d => { d with id := 0 }) }

/-- Invariants that hold along every run regardless of the policy output:
well-formed waiting queues, id-counter bound, timestamp discipline. -/
def InvA (st : EDState) : Prop :=
  WfWaiting st.waiting ∧ (∀ i ∈ st.waiting.idsM, i ≤ st.id_counter) ∧ TimesOK st

/-- Shift a patient's id by `δ`: the relation between the patients of two
replications whose starting values of the class counter
`Patient._id_counter` differ by `δ`. All other fields are untouched. -/
def Patient.shiftIds (δ : Nat) (p : Patient) : Patient :=
  { p with id := p.id + δ }

/-- Shift the patient id a doctor currently holds (doctor ids themselves
are per-instance and are not shifted). -/
def Doctor.shiftIds (δ : Nat) (d : Doctor) : Doctor :=
  { d with current_patient := d.current_patient.map (· + δ) }

/-- Shift the patient id a bed currently holds. -/
def Bed.shiftIds (δ : Nat) (b : Bed) : Bed :=
  { b with current_patient := b.current_patient.map (· + δ) }

/-- Shift every waiting patient's id. -/
def WaitingQueues.shiftIds (δ : Nat) (w : WaitingQueues) : WaitingQueues where
  p1 := w.p1.map (Patient.shiftIds δ)
  p2 := w.p2.map (Patient.shiftIds δ)
  p3 := w.p3.map (Patient.shiftIds δ)
  p4 := w.p4.map (Patient.shiftIds δ)
  p5 := w.p5.map (Patient.shiftIds δ)

/-- Shift every patient id occurring anywhere in a state by `δ`: the
relation between the states of two replications run from class-counter
values `δ` apart. Everything that is not a patient id (times, priorities,
durations, resource ids, metrics, counters) is untouched. -/
def EDState.shiftIds (δ : Nat) (st : EDState) : EDState :=
  { st with
      waiting := st.waiting.shiftIds δ,
      treating := st.treating.map (Patient.shiftIds δ),
      discharged := st.discharged.map (Patient.shiftIds δ),
      doctors := st.doctors.map (Doctor.shiftIds δ),
      beds := st.beds.map (Bed.shiftIds δ),
      id_counter := st.id_counter + δ,
      pending := st.pending.map (fun e => (e.1, e.2 + δ)) }

/-- Shift the patient ids an event names. The optimizer of the shifted run
is shown the shifted snapshot, so when the policy does not read the ids
its output on that snapshot is exactly the shifted triples; the scheduled
completions likewise carry the shifted ids. Firing times, priorities,
durations and the coin stream are untouched. -/
def Op.shiftIds (δ : Nat) : Op → Op
  | .arrive t pr dur => .arrive t pr dur
  | .deteriorationCheck t coins => .deteriorationCheck t coins
  | .optimize t (.error e) => .optimize t (.error e)
  | .optimize t (.ok triples) =>
      .optimize t (.ok (triples.map (fun tr => (tr.1 + δ, tr.2.1, tr.2.2))))
  | .treatmentComplete t pid => .treatmentComplete t (pid + δ)
  | .collectMetrics t => .collectMetrics t

/-- C8: `Patient.deteriorate` never increases the numeric priority value,
never produces a value below 1, and leaves a P1 patient completely
unchanged. Since `deteriorate` is the only operation anywhere in the code
that writes `priority`, priority values are non-increasing over simulated
time with 1 as a floor. -/
theorem C8_deteriorate_monotone_floor (p : Patient) :
    (p.deteriorate).priority.value ≤ p.priority.value ∧
    1 ≤ (p.deteriorate).priority.value ∧
    (p.priority.value = 1 → p.deteriorate = p) := by
  rcases p with ⟨i, a, pr, ipr, td, stt, ett, ad, ab⟩
  cases pr <;> simp [Patient.deteriorate, Priority.value, Priority.ofValue]

/-- Witness for C8 at concrete patients: a P1 patient is unchanged by
deterioration, and a P2 patient stays within the bounds. -/
theorem C8_witness :
    (Patient.deteriorate ⟨7, 0, .P1_RESUSCITATION, .P1_RESUSCITATION, 30,
        none, none, none, none⟩) =
      ⟨7, 0, .P1_RESUSCITATION, .P1_RESUSCITATION, 30, none, none, none, none⟩ ∧
    (Patient.deteriorate ⟨8, 0, .P2_EMERGENT, .P2_EMERGENT, 30,
        none, none, none, none⟩).priority.value ≤ 2 :=
  ⟨(C8_deteriorate_monotone_floor _).2.2 (by decide),
   (C8_deteriorate_monotone_floor _).1⟩

/-- C10: before treatment starts, `get_wait_time t` is `t - arrival_time`;
once `start_treatment_time` is set the reported wait is frozen at
`start_treatment_time - arrival_time`, independent of the query time. -/
theorem C10_wait_time_frozen (p : Patient) (t t' : ℚ) :
    (p.start_treatment_time = none →
      p.get_wait_time t = t - p.arrival_time) ∧
    (∀ s, p.start_treatment_time = some s →
      p.get_wait_time t = s - p.arrival_time ∧
      p.get_wait_time t = p.get_wait_time t') := by
  cases h : p.start_treatment_time <;> simp [Patient.get_wait_time, h]

/-- Witness for C10: a waiting patient (arrival 10, queried at 40) reports
30; an assigned patient (start 40) reports 30 at any query time. -/
theorem C10_witness :
    (Patient.get_wait_time
      ⟨1, 10, .P3_URGENT, .P3_URGENT, 60, none, none, none, none⟩ 40 = 30) ∧
    (Patient.get_wait_time
      ⟨1, 10, .P3_URGENT, .P3_URGENT, 60, some 40, none, some 1, some 1⟩ 50 =
      30) ∧
    (Patient.get_wait_time
      ⟨1, 10, .P3_URGENT, .P3_URGENT, 60, some 40, none, some 1, some 1⟩ 50 =
     Patient.get_wait_time
      ⟨1, 10, .P3_URGENT, .P3_URGENT, 60, some 40, none, some 1, some 1⟩ 999) := by
  refine ⟨?_, ?_, ?_⟩
  · have h := (C10_wait_time_frozen
      ⟨1, 10, .P3_URGENT, .P3_URGENT, 60, none, none, none, none⟩ 40 40).1 rfl
    rw [h]; norm_num
  · have h := ((C10_wait_time_frozen
      ⟨1, 10, .P3_URGENT, .P3_URGENT, 60, some 40, none, some 1, some 1⟩ 50 999).2
      40 rfl).1
    rw [h]; norm_num
  · exact ((C10_wait_time_frozen
      ⟨1, 10, .P3_URGENT, .P3_URGENT, 60, some 40, none, some 1, some 1⟩ 50 999).2
      40 rfl).2

/-- C7: when the optimizer call raises, the exception is caught by
`optimization_process`; the cycle leaves the whole state unchanged apart
from the clock having advanced to the cycle's firing time (zero
assignments), and the run continues. -/
theorem C7_policy_error_caught (st : EDState) (t : ℚ) (e : String) :
    applyOp st (.optimize t (.error e)) = { st with now := t } :=
  rfl

/-- C1 counterexample: in the spec's own scenario (3 waiting patients, one
doctor, one bed, the policy returning doctor 0 and bed 0 in both triples)
the second triple is NOT skipped: both patients end up in treatment
assigned to doctor 0, and the doctor record has been overwritten to point
at patient 2 with two treatments counted. -/
theorem C1_counterexample :
    ValidTrace (edInit 1 1 6 30 0) c1ops ∧
    c1final.treating.map (fun p => (p.id, p.assigned_doctor, p.assigned_bed))
      = [(1, some 0, some 0), (2, some 0, some 0)] ∧
    c1final.doctors.map
      (fun d => (d.is_available, d.current_patient, d.total_patients_treated))
      = [(false, some 2, 2)] ∧
    c1final.beds.map (fun b => (b.is_available, b.current_patient))
      = [(false, some 2)] := by
  decide

theorem qIds_cons (p : Patient) (l : List Patient) :
    qIds (p :: l) = p.id :: qIds l := rfl

theorem mem_qIds {l : List Patient} {i : Nat} :
    i ∈ qIds l ↔ ∃ p ∈ l, p.id = i := by
  simp [qIds]

theorem mem_removeById {l : List Patient} {pid : Nat} {q : Patient}
    (h : q ∈ removeById l pid) : q ∈ l := by
  induction l with
  | nil => simp [removeById] at h
  | cons p rest ih =>
    by_cases hp : p.id = pid
    · simp [removeById, hp] at h
      exact List.mem_cons_of_mem _ h
    · simp [removeById, hp] at h
      rcases h with h | h
      · exact h ▸ List.mem_cons_self _ _
      · exact List.mem_cons_of_mem _ (ih h)

theorem mem_removeById_of_ne {l : List Patient} {pid : Nat} {q : Patient}
    (hq : q ∈ l) (hne : q.id ≠ pid) : q ∈ removeById l pid := by
  induction l with
  | nil => simp at hq
  | cons p rest ih =>
    by_cases hp : p.id = pid
    · rcases List.mem_cons.mp hq with rfl | h
      · exact absurd hp hne
      · simpa [removeById, hp] using h
    · rcases List.mem_cons.mp hq with rfl | h
      · simp [removeById, hp]
      · simp [removeById, hp]
        exact Or.inr (ih h)

theorem msetIds_removeById {l : List Patient} {pid : Nat}
    (h : pid ∈ qIds l) :
    (qIds l : Multiset Nat) = (qIds (removeById l pid) : Multiset Nat) + {pid} := by
  induction l with
  | nil => simp [qIds] at h
  | cons p rest ih =>
    by_cases hp : p.id = pid
    · simp [removeById, hp, qIds_cons]
      rw [← Multiset.cons_coe, ← hp]
      rw [add_comm, Multiset.singleton_add]
    · have h' : pid ∈ qIds rest := by
        rcases List.mem_cons.mp h with h0 | h0
        · exact absurd h0.symm hp
        · exact h0
      simp only [removeById, hp, if_false, qIds_cons, ← Multiset.cons_coe, ih h',
        Multiset.cons_add]

theorem extractById_eq_none {l : List Patient} {pid : Nat} :
    extractById l pid = none ↔ pid ∉ qIds l := by
  induction l with
  | nil => simp [extractById, qIds]
  | cons p rest ih =>
    by_cases hp : p.id = pid
    · simp [extractById, hp, qIds_cons]
    · simp only [extractById, hp, if_false, qIds_cons, List.mem_cons]
      cases hrec : extractById rest pid with
      | none =>
        have hnot := ih.mp hrec
        simp [hrec, hnot, Ne.symm hp]
      | some pair =>
        have : pid ∈ qIds rest := by
          by_contra hc
          rw [ih.mpr hc] at hrec
          cases hrec
        simp [this]

theorem extractById_spec {l l' : List Patient} {pid : Nat} {p : Patient}
    (h : extractById l pid = some (p, l')) :
    p.id = pid ∧ p ∈ l ∧ (∀ q ∈ l', q ∈ l) ∧
      (qIds l : Multiset Nat) = pid ::ₘ (qIds l' : Multiset Nat) := by
  induction l generalizing l' with
  | nil => simp [extractById] at h
  | cons p0 rest ih =>
    by_cases hp : p0.id = pid
    · simp only [extractById, hp, if_true, Option.some_inj] at h
      obtain ⟨rfl, rfl⟩ := Prod.mk.injEq .. ▸ h
      refine ⟨hp, List.mem_cons_self _ _, fun q hq => List.mem_cons_of_mem _ hq, ?_⟩
      rw [qIds_cons, ← Multiset.cons_coe, hp]
    · simp only [extractById, hp, if_false] at h
      cases hrec : extractById rest pid with
      | none => rw [hrec] at h; cases h
      | some pair =>
        obtain ⟨p1, rest2⟩ := pair
        rw [hrec] at h
        simp only [Option.some_inj] at h
        obtain ⟨rfl, rfl⟩ := Prod.mk.injEq .. ▸ h
        obtain ⟨h1, h2, h3, h4⟩ := ih hrec
        refine ⟨h1, List.mem_cons_of_mem _ h2, ?_, ?_⟩
        · intro q hq
          rcases List.mem_cons.mp hq with rfl | hq
          · exact List.mem_cons_self _ _
          · exact List.mem_cons_of_mem _ (h3 q hq)
        · rw [qIds_cons, ← Multiset.cons_coe, h4, qIds_cons, ← Multiset.cons_coe,
            Multiset.cons_swap]

theorem WaitingQueues.get_update (w : WaitingQueues) (pr pr' : Priority)
    (f : List Patient → List Patient) :
    (w.update pr f).get pr' = if pr' = pr then f (w.get pr) else w.get pr' := by
  cases pr <;> cases pr' <;> rfl

theorem WaitingQueues.mem_flatten_of_get {w : WaitingQueues} {pr : Priority}
    {q : Patient} (h : q ∈ w.get pr) : q ∈ w.flatten := by
  cases pr <;> simp [WaitingQueues.flatten, WaitingQueues.get] at * <;> tauto

theorem WaitingQueues.mem_flatten_iff {w : WaitingQueues} {q : Patient} :
    q ∈ w.flatten ↔ ∃ pr, q ∈ w.get pr := by
  constructor
  · intro h
    simp [WaitingQueues.flatten] at h
    rcases h with h | h | h | h | h
    exacts [⟨.P1_RESUSCITATION, h⟩, ⟨.P2_EMERGENT, h⟩, ⟨.P3_URGENT, h⟩,
      ⟨.P4_LESS_URGENT, h⟩, ⟨.P5_NON_URGENT, h⟩]
  · rintro ⟨pr, h⟩
    exact WaitingQueues.mem_flatten_of_get h

theorem WaitingQueues.idsM_eq (w : WaitingQueues) :
    w.idsM = (qIds w.flatten : Multiset Nat) := by
  simp [WaitingQueues.idsM, WaitingQueues.flatten, qIds, Multiset.coe_add]

theorem WaitingQueues.idsM_update_append (w : WaitingQueues) (pr : Priority)
    (p : Patient) :
    (w.update pr (· ++ [p])).idsM = w.idsM + {p.id} := by
  cases pr <;>
    simp [WaitingQueues.idsM, WaitingQueues.update, WaitingQueues.get,
      WaitingQueues.set, qIds, ← Multiset.coe_add] <;>
    abel

theorem WaitingQueues.idsM_update_remove (w : WaitingQueues) (pr : Priority)
    (pid : Nat) (h : pid ∈ qIds (w.get pr)) :
    w.idsM = (w.update pr (removeById · pid)).idsM + {pid} := by
  have key := msetIds_removeById h
  cases pr <;>
    · simp only [WaitingQueues.get] at key
      simp only [WaitingQueues.idsM, WaitingQueues.update, WaitingQueues.get,
        WaitingQueues.set, key]
      abel

theorem WaitingQueues.component_nodup {w : WaitingQueues} (h : w.idsM.Nodup)
    (pr : Priority) : (qIds (w.get pr)).Nodup := by
  refine Multiset.coe_nodup.mp (Multiset.nodup_of_le ?_ h)
  refine Multiset.le_iff_exists_add.mpr ?_
  cases pr
  · exact ⟨(qIds w.p2 : Multiset Nat) + qIds w.p3 + qIds w.p4 + qIds w.p5,
      by simp only [WaitingQueues.idsM, WaitingQueues.get]; abel⟩
  · exact ⟨(qIds w.p1 : Multiset Nat) + qIds w.p3 + qIds w.p4 + qIds w.p5,
      by simp only [WaitingQueues.idsM, WaitingQueues.get]; abel⟩
  · exact ⟨(qIds w.p1 : Multiset Nat) + qIds w.p2 + qIds w.p4 + qIds w.p5,
      by simp only [WaitingQueues.idsM, WaitingQueues.get]; abel⟩
  · exact ⟨(qIds w.p1 : Multiset Nat) + qIds w.p2 + qIds w.p3 + qIds w.p5,
      by simp only [WaitingQueues.idsM, WaitingQueues.get]; abel⟩
  · exact ⟨(qIds w.p1 : Multiset Nat) + qIds w.p2 + qIds w.p3 + qIds w.p4,
      by simp only [WaitingQueues.idsM, WaitingQueues.get]; abel⟩

theorem WaitingQueues.mem_get_idsM {w : WaitingQueues} {pr : Priority}
    {p : Patient} (h : p ∈ w.get pr) : p.id ∈ w.idsM := by
  rw [WaitingQueues.idsM_eq]
  exact Multiset.mem_coe.mpr (mem_qIds.mpr ⟨p, WaitingQueues.mem_flatten_of_get h, rfl⟩)

theorem WaitingQueues.count_eq_card (w : WaitingQueues) :
    w.count = Multiset.card w.idsM := by
  simp [WaitingQueues.count, WaitingQueues.idsM, qIds]
  omega

theorem WaitingQueues.extract_eq_none {w : WaitingQueues} {pid : Nat} :
    w.extract pid = none ↔ pid ∉ qIds w.flatten := by
  have hsplit : pid ∈ qIds w.flatten ↔
      pid ∈ qIds w.p1 ∨ pid ∈ qIds w.p2 ∨ pid ∈ qIds w.p3 ∨
      pid ∈ qIds w.p4 ∨ pid ∈ qIds w.p5 := by
    simp [WaitingQueues.flatten, qIds]
  constructor
  · intro h
    unfold WaitingQueues.extract at h
    rw [hsplit]
    cases h1 : extractById w.p1 pid with
    | some x => rw [h1] at h; cases h
    | none =>
    cases h2 : extractById w.p2 pid with
    | some x => rw [h1, h2] at h; cases h
    | none =>
    cases h3 : extractById w.p3 pid with
    | some x => rw [h1, h2, h3] at h; cases h
    | none =>
    cases h4 : extractById w.p4 pid with
    | some x => rw [h1, h2, h3, h4] at h; cases h
    | none =>
    cases h5 : extractById w.p5 pid with
    | some x => rw [h1, h2, h3, h4, h5] at h; cases h
    | none =>
      push_neg
      exact ⟨extractById_eq_none.mp h1, extractById_eq_none.mp h2,
        extractById_eq_none.mp h3, extractById_eq_none.mp h4,
        extractById_eq_none.mp h5⟩
  · intro h
    rw [hsplit] at h
    push_neg at h
    obtain ⟨n1, n2, n3, n4, n5⟩ := h
    unfold WaitingQueues.extract
    rw [extractById_eq_none.mpr n1, extractById_eq_none.mpr n2,
      extractById_eq_none.mpr n3, extractById_eq_none.mpr n4,
      extractById_eq_none.mpr n5]

theorem WaitingQueues.extract_spec {w w' : WaitingQueues} {pid : Nat}
    {p : Patient} (h : w.extract pid = some (p, w')) :
    p.id = pid ∧ p ∈ w.flatten ∧
      (∀ pr, ∀ q ∈ w'.get pr, q ∈ w.get pr) ∧
      w.idsM = pid ::ₘ w'.idsM := by
  unfold WaitingQueues.extract at h
  cases h1 : extractById w.p1 pid with
  | some x =>
    obtain ⟨p1, l1⟩ := x
    rw [h1] at h
    simp only [Option.some_inj, Prod.mk.injEq] at h
    obtain ⟨rfl, rfl⟩ := h
    obtain ⟨hid, hmem, hsub, hms⟩ := extractById_spec h1
    refine ⟨hid, @WaitingQueues.mem_flatten_of_get _ .P1_RESUSCITATION _ hmem,
      ?_, ?_⟩
    · intro pr q hq
      cases pr <;> simp only [WaitingQueues.get] at hq ⊢ <;>
        first | exact hsub q hq | exact hq
    · simp only [WaitingQueues.idsM, hms]
      simp only [Multiset.add_cons, Multiset.cons_add]
  | none =>
  rw [h1] at h
  cases h2 : extractById w.p2 pid with
  | some x =>
    obtain ⟨p1, l1⟩ := x
    rw [h2] at h
    simp only [Option.some_inj, Prod.mk.injEq] at h
    obtain ⟨rfl, rfl⟩ := h
    obtain ⟨hid, hmem, hsub, hms⟩ := extractById_spec h2
    refine ⟨hid, @WaitingQueues.mem_flatten_of_get _ .P2_EMERGENT _ hmem,
      ?_, ?_⟩
    · intro pr q hq
      cases pr <;> simp only [WaitingQueues.get] at hq ⊢ <;>
        first | exact hsub q hq | exact hq
    · simp only [WaitingQueues.idsM, hms]
      simp only [Multiset.add_cons, Multiset.cons_add]
  | none =>
  rw [h2] at h
  cases h3 : extractById w.p3 pid with
  | some x =>
    obtain ⟨p1, l1⟩ := x
    rw [h3] at h
    simp only [Option.some_inj, Prod.mk.injEq] at h
    obtain ⟨rfl, rfl⟩ := h
    obtain ⟨hid, hmem, hsub, hms⟩ := extractById_spec h3
    refine ⟨hid, @WaitingQueues.mem_flatten_of_get _ .P3_URGENT _ hmem,
      ?_, ?_⟩
    · intro pr q hq
      cases pr <;> simp only [WaitingQueues.get] at hq ⊢ <;>
        first | exact hsub q hq | exact hq
    · simp only [WaitingQueues.idsM, hms]
      simp only [Multiset.add_cons, Multiset.cons_add]
  | none =>
  rw [h3] at h
  cases h4 : extractById w.p4 pid with
  | some x =>
    obtain ⟨p1, l1⟩ := x
    rw [h4] at h
    simp only [Option.some_inj, Prod.mk.injEq] at h
    obtain ⟨rfl, rfl⟩ := h
    obtain ⟨hid, hmem, hsub, hms⟩ := extractById_spec h4
    refine ⟨hid, @WaitingQueues.mem_flatten_of_get _ .P4_LESS_URGENT _ hmem,
      ?_, ?_⟩
    · intro pr q hq
      cases pr <;> simp only [WaitingQueues.get] at hq ⊢ <;>
        first | exact hsub q hq | exact hq
    · simp only [WaitingQueues.idsM, hms]
      simp only [Multiset.add_cons, Multiset.cons_add]
  | none =>
  rw [h4] at h
  cases h5 : extractById w.p5 pid with
  | some x =>
    obtain ⟨p1, l1⟩ := x
    rw [h5] at h
    simp only [Option.some_inj, Prod.mk.injEq] at h
    obtain ⟨rfl, rfl⟩ := h
    obtain ⟨hid, hmem, hsub, hms⟩ := extractById_spec h5
    refine ⟨hid, @WaitingQueues.mem_flatten_of_get _ .P5_NON_URGENT _ hmem,
      ?_, ?_⟩
    · intro pr q hq
      cases pr <;> simp only [WaitingQueues.get] at hq ⊢ <;>
        first | exact hsub q hq | exact hq
    · simp only [WaitingQueues.idsM, hms]
      simp only [Multiset.add_cons, Multiset.cons_add]
  | none =>
    rw [h5] at h
    cases h

theorem get_doctor_by_id_spec {ds : List Doctor} {did : Nat} {d : Doctor}
    (h : get_doctor_by_id ds did = some d) : d ∈ ds ∧ d.id = did := by
  induction ds with
  | nil => simp [get_doctor_by_id] at h
  | cons d0 rest ih =>
    by_cases h0 : d0.id = did
    · simp only [get_doctor_by_id, h0, if_true, Option.some_inj] at h
      exact ⟨h ▸ List.mem_cons_self _ _, h ▸ h0⟩
    · simp only [get_doctor_by_id, h0, if_false] at h
      obtain ⟨hm, hi⟩ := ih h
      exact ⟨List.mem_cons_of_mem _ hm, hi⟩

theorem get_doctor_by_id_isSome {ds : List Doctor} {did : Nat} :
    (get_doctor_by_id ds did).isSome ↔ did ∈ ds.map (·.id) := by
  induction ds with
  | nil => simp [get_doctor_by_id]
  | cons d0 rest ih =>
    by_cases h0 : d0.id = did
    · simp [get_doctor_by_id, h0]
    · simp [get_doctor_by_id, h0, ih, Ne.symm h0]

theorem get_bed_by_id_spec {bs : List Bed} {bid : Nat} {b : Bed}
    (h : get_bed_by_id bs bid = some b) : b ∈ bs ∧ b.id = bid := by
  induction bs with
  | nil => simp [get_bed_by_id] at h
  | cons b0 rest ih =>
    by_cases h0 : b0.id = bid
    · simp only [get_bed_by_id, h0, if_true, Option.some_inj] at h
      exact ⟨h ▸ List.mem_cons_self _ _, h ▸ h0⟩
    · simp only [get_bed_by_id, h0, if_false] at h
      obtain ⟨hm, hi⟩ := ih h
      exact ⟨List.mem_cons_of_mem _ hm, hi⟩

theorem get_bed_by_id_isSome {bs : List Bed} {bid : Nat} :
    (get_bed_by_id bs bid).isSome ↔ bid ∈ bs.map (·.id) := by
  induction bs with
  | nil => simp [get_bed_by_id]
  | cons b0 rest ih =>
    by_cases h0 : b0.id = bid
    · simp [get_bed_by_id, h0]
    · simp [get_bed_by_id, h0, ih, Ne.symm h0]

theorem updateDoctorById_ids {ds : List Doctor} {did : Nat} {f : Doctor → Doctor}
    (hf : ∀ d, (f d).id = d.id) :
    (updateDoctorById ds did f).map (·.id) = ds.map (·.id) := by
  induction ds with
  | nil => rfl
  | cons d0 rest ih =>
    by_cases h0 : d0.id = did
    · simp [updateDoctorById, h0, hf]
    · simp [updateDoctorById, h0, ih]

theorem updateBedById_ids {bs : List Bed} {bid : Nat} {f : Bed → Bed}
    (hf : ∀ b, (f b).id = b.id) :
    (updateBedById bs bid f).map (·.id) = bs.map (·.id) := by
  induction bs with
  | nil => rfl
  | cons b0 rest ih =>
    by_cases h0 : b0.id = bid
    · simp [updateBedById, h0, hf]
    · simp [updateBedById, h0, ih]

theorem mem_updateDoctorById {ds : List Doctor} {did : Nat} {f : Doctor → Doctor}
    {d0 : Doctor} (h : get_doctor_by_id ds did = some d0) :
    f d0 ∈ updateDoctorById ds did f := by
  induction ds with
  | nil => simp [get_doctor_by_id] at h
  | cons d1 rest ih =>
    by_cases h0 : d1.id = did
    · simp only [get_doctor_by_id, h0, if_true, Option.some_inj] at h
      subst h
      simp [updateDoctorById, h0]
    · simp only [get_doctor_by_id, h0, if_false] at h
      simp [updateDoctorById, h0]
      exact Or.inr (ih h)

theorem mem_updateBedById {bs : List Bed} {bid : Nat} {f : Bed → Bed}
    {b0 : Bed} (h : get_bed_by_id bs bid = some b0) :
    f b0 ∈ updateBedById bs bid f := by
  induction bs with
  | nil => simp [get_bed_by_id] at h
  | cons b1 rest ih =>
    by_cases h0 : b1.id = bid
    · simp only [get_bed_by_id, h0, if_true, Option.some_inj] at h
      subst h
      simp [updateBedById, h0]
    · simp only [get_bed_by_id, h0, if_false] at h
      simp [updateBedById, h0]
      exact Or.inr (ih h)

/-- C6: applying a policy triple whose patient id matches no
currently-waiting patient leaves the entire state unchanged — nothing is
removed or added anywhere, no resource is claimed, no completion event is
scheduled, and no exception is raised (`_assign_patient` simply returns). -/
theorem C6_stale_patient_skip (st : EDState) (pid did bid : Nat)
    (h : pid ∉ qIds st.waiting.flatten) :
    assignPatient st pid did bid = st := by
  have hnone : st.waiting.extract pid = none :=
    WaitingQueues.extract_eq_none.mpr h
  simp [assignPatient, hnone]

/-- Witness for C6: in a fresh department (no one waiting), a triple naming
patient 1, doctor 0, bed 0 changes nothing. -/
theorem C6_witness :
    assignPatient (edInit 1 1 6 30 0) 1 0 0 = edInit 1 1 6 30 0 :=
  C6_stale_patient_skip (edInit 1 1 6 30 0) 1 0 0 (by decide)

/-- C1 amended: `_assign_patient` looks resources up by id only and never
consults `is_available`, so ANY triple whose patient is waiting and whose
doctor and bed ids exist in the pools is committed — even if the doctor or
bed is already busy. The commit overwrites the resource's
`current_patient`. Hence when one batch names the same doctor id twice,
both triples are committed (two patients in treatment referencing the same
doctor), not just the first. -/
theorem C1_amended_commit_ignores_availability (st : EDState)
    (pid did bid : Nat)
    (hp : pid ∈ qIds st.waiting.flatten)
    (hd : did ∈ st.doctors.map (·.id))
    (hb : bid ∈ st.beds.map (·.id)) :
    (∃ q ∈ (assignPatient st pid did bid).treating,
        q.id = pid ∧ q.assigned_doctor = some did ∧
        q.assigned_bed = some bid) ∧
    (∃ d ∈ (assignPatient st pid did bid).doctors,
        d.id = did ∧ d.is_available = false ∧
        d.current_patient = some pid) ∧
    (∃ b ∈ (assignPatient st pid did bid).beds,
        b.id = bid ∧ b.is_available = false ∧
        b.current_patient = some pid) := by
  cases hx : st.waiting.extract pid with
  | none => exact absurd (WaitingQueues.extract_eq_none.mp hx) (by simpa using hp)
  | some pw =>
    obtain ⟨p, w'⟩ := pw
    obtain ⟨hpid, -, -, -⟩ := WaitingQueues.extract_spec hx
    obtain ⟨d0, hd0⟩ := Option.isSome_iff_exists.mp (get_doctor_by_id_isSome.mpr hd)
    obtain ⟨b0, hb0⟩ := Option.isSome_iff_exists.mp (get_bed_by_id_isSome.mpr hb)
    obtain ⟨-, hd0id⟩ := get_doctor_by_id_spec hd0
    obtain ⟨-, hb0id⟩ := get_bed_by_id_spec hb0
    have hstep : assignPatient st pid did bid =
        { st with
            waiting := w',
            doctors := updateDoctorById st.doctors did
              (fun d => d.assign_patient pid),
            beds := updateBedById st.beds bid
              (fun b => b.assign_patient pid),
            treating := st.treating ++ [p.start_treatment st.now did bid],
            pending := st.pending ++ [(st.now + p.treatment_duration, p.id)] } := by
      rw [assignPatient, hx, hd0, hb0]
    rw [hstep]
    refine ⟨⟨p.start_treatment st.now did bid, ?_, ?_, rfl, rfl⟩,
      ⟨d0.assign_patient pid, ?_, ?_, rfl, rfl⟩,
      ⟨b0.assign_patient pid, ?_, ?_, rfl, rfl⟩⟩
    · exact List.mem_append_right _ (List.mem_singleton.mpr rfl)
    · simpa [Patient.start_treatment] using hpid
    · exact mem_updateDoctorById hd0
    · simpa [Doctor.assign_patient] using hd0id
    · exact mem_updateBedById hb0
    · simpa [Bed.assign_patient] using hb0id

/-- Witness for C1 amended: after patients 1 and 2 arrive and patient 1 is
assigned doctor 0 and bed 0 (doctor 0 now busy), a second triple naming the
SAME doctor and bed for patient 2 is still committed, and the resources end
up pointing at patient 2. -/
theorem C1_amended_witness :
    (∃ q ∈ (assignPatient (assignPatient (runOps (edInit 1 1 6 30 0)
        [.arrive 10 .P3_URGENT 60, .arrive 11 .P3_URGENT 60]) 1 0 0)
        2 0 0).treating,
        q.id = 2 ∧ q.assigned_doctor = some 0 ∧ q.assigned_bed = some 0) ∧
    (∃ d ∈ (assignPatient (assignPatient (runOps (edInit 1 1 6 30 0)
        [.arrive 10 .P3_URGENT 60, .arrive 11 .P3_URGENT 60]) 1 0 0)
        2 0 0).doctors,
        d.id = 0 ∧ d.is_available = false ∧ d.current_patient = some 2) ∧
    (∃ b ∈ (assignPatient (assignPatient (runOps (edInit 1 1 6 30 0)
        [.arrive 10 .P3_URGENT 60, .arrive 11 .P3_URGENT 60]) 1 0 0)
        2 0 0).beds,
        b.id = 0 ∧ b.is_available = false ∧ b.current_patient = some 2) :=
  C1_amended_commit_ignores_availability _ 2 0 0
    (by decide) (by decide) (by decide)

theorem deteriorate_P3 {p : Patient} (hp : p.priority = .P3_URGENT) :
    p.deteriorate = { p with priority := .P2_EMERGENT } := by
  simp [Patient.deteriorate, hp, Priority.value, Priority.ofValue]

theorem deteriorate_P2 {p : Patient} (hp : p.priority = .P2_EMERGENT) :
    p.deteriorate = { p with priority := .P1_RESUSCITATION } := by
  simp [Patient.deteriorate, hp, Priority.value, Priority.ofValue]

theorem coherent_move {w : WaitingQueues}
    (hco : ∀ pr', ∀ q ∈ w.get pr', q.priority = pr')
    (pr : Priority) (pid : Nat) (p2 : Patient) :
    ∀ pr', ∀ q ∈ ((w.update pr (removeById · pid)).update p2.priority
        (· ++ [p2])).get pr', q.priority = pr' := by
  intro pr' q hq
  rw [WaitingQueues.get_update] at hq
  by_cases h1 : pr' = p2.priority
  · rw [if_pos h1] at hq
    rcases List.mem_append.mp hq with hq | hq
    · rw [WaitingQueues.get_update] at hq
      by_cases h2 : p2.priority = pr
      · rw [if_pos h2] at hq
        rw [h1, h2]
        exact hco pr _ (mem_removeById hq)
      · rw [if_neg h2] at hq
        rw [h1]
        exact hco _ _ hq
    · rw [List.mem_singleton.mp hq, h1]
  · rw [if_neg h1] at hq
    rw [WaitingQueues.get_update] at hq
    by_cases h2 : pr' = pr
    · rw [if_pos h2] at hq
      rw [h2]
      exact hco pr _ (mem_removeById hq)
    · rw [if_neg h2] at hq
      exact hco _ _ hq

theorem deterFold_p45_frame (coins : Nat → Bool) (pr : Priority)
    (hpr : pr = .P3_URGENT ∨ pr = .P2_EMERGENT) :
    ∀ (s : List Patient) (st : EDState) (k : Nat),
      (∀ p ∈ s, p.priority = pr) →
      (∀ pr', ∀ q ∈ st.waiting.get pr', q.priority = pr') →
      (s.foldl (deterStep coins) (st, k)).1.waiting.p4 = st.waiting.p4 ∧
      (s.foldl (deterStep coins) (st, k)).1.waiting.p5 = st.waiting.p5 ∧
      (∀ pr', ∀ q ∈ (s.foldl (deterStep coins) (st, k)).1.waiting.get pr',
        q.priority = pr') := by
  intro s
  induction s with
  | nil => intro st k _ hco; exact ⟨rfl, rfl, hco⟩
  | cons p rest ih =>
    intro st k hs hco
    have hpp : p.priority = pr := hs p (List.mem_cons_self _ _)
    have hrest : ∀ q ∈ rest, q.priority = pr :=
      fun q hq => hs q (List.mem_cons_of_mem _ hq)
    rw [List.foldl_cons]
    by_cases hw : p.get_wait_time st.now > p.get_max_wait_time * 2
    · by_cases hc : coins k
      · have hdet : p.deteriorate.priority ≠ p.priority := by
          rcases hpr with h | h <;> rw [h] at hpp <;>
            simp [deteriorate_P3, deteriorate_P2, hpp]
        have hstep : deterStep coins (st, k) p =
            ({ st with
                waiting := (st.waiting.update p.priority
                  (removeById · p.id)).update p.deteriorate.priority
                  (· ++ [p.deteriorate]),
                total_deteriorations := st.total_deteriorations + 1 }, k + 1) := by
          simp [deterStep, hw, hc, hdet]
        rw [hstep]
        have hco' := coherent_move hco p.priority p.id p.deteriorate
        obtain ⟨h4, h5, hcof⟩ := ih
          { st with
              waiting := (st.waiting.update p.priority
                (removeById · p.id)).update p.deteriorate.priority
                (· ++ [p.deteriorate]),
              total_deteriorations := st.total_deteriorations + 1 }
          (k + 1) hrest hco'
        refine ⟨?_, ?_, hcof⟩
        · rw [h4]
          rcases hpr with h | h <;> rw [h] at hpp <;>
            simp [deteriorate_P3, deteriorate_P2, hpp,
              WaitingQueues.update, WaitingQueues.get, WaitingQueues.set]
        · rw [h5]
          rcases hpr with h | h <;> rw [h] at hpp <;>
            simp [deteriorate_P3, deteriorate_P2, hpp,
              WaitingQueues.update, WaitingQueues.get, WaitingQueues.set]
      · have hstep : deterStep coins (st, k) p = (st, k + 1) := by
          simp [deterStep, hw, hc]
        rw [hstep]
        exact ih _ (k + 1) hrest hco
    · have hstep : deterStep coins (st, k) p = (st, k) := by
        simp [deterStep, hw]
      rw [hstep]
      exact ih _ k hrest hco

theorem deterFold_false_coins :
    ∀ (s : List Patient) (st : EDState) (k : Nat), 1 ≤ k →
      ∃ k2, s.foldl (deterStep (fun j => decide (j = 0))) (st, k) = (st, k2) ∧
        1 ≤ k2 := by
  intro s
  induction s with
  | nil => intro st k hk; exact ⟨k, rfl, hk⟩
  | cons p rest ih =>
    intro st k hk
    rw [List.foldl_cons]
    by_cases hw : p.get_wait_time st.now > p.get_max_wait_time * 2
    · have hc : decide (k = 0) = false := by
        simp only [decide_eq_false_iff_not]
        omega
      have hstep : deterStep (fun j => decide (j = 0)) (st, k) p = (st, k + 1) := by
        simp [deterStep, hw, hc]
      rw [hstep]
      exact ih st (k + 1) (by omega)
    · have hstep : deterStep (fun j => decide (j = 0)) (st, k) p = (st, k) := by
        simp [deterStep, hw]
      rw [hstep]
      exact ih st k hk

/-- C4 counterexample: a P4 patient who has waited 1000 minutes — far beyond
2 × 60, its maximum recommended wait — is never given any escalation chance:
a deterioration check whose every coin is `true` leaves it at P4 and the
deterioration counter at 0, because `deterioration_process` iterates only
over the P3 and P2 queues. -/
theorem C4_counterexample :
    ValidTrace (edInit 1 1 6 30 0) c4ops ∧
    c4final.waiting.p4 =
      [⟨1, 0, .P4_LESS_URGENT, .P4_LESS_URGENT, 45, none, none, none, none⟩] ∧
    c4final.total_deteriorations = 0 ∧
    Patient.get_wait_time
      ⟨1, 0, .P4_LESS_URGENT, .P4_LESS_URGENT, 45, none, none, none, none⟩ 1000
      = 1000 ∧
    Patient.get_max_wait_time
      ⟨1, 0, .P4_LESS_URGENT, .P4_LESS_URGENT, 45, none, none, none, none⟩
      = 60 := by
  refine ⟨by decide, by decide, by decide, ?_, by decide⟩
  norm_num [Patient.get_wait_time]

/-- C4 amended: the deterioration check examines ONLY the P3 queue and then
the P2 queue (never P4 or P5; P1 is excluded as already maximal): (1) for
every state whose patients sit in the queues matching their priority, a
check leaves the P4 and P5 queues untouched, whatever the coins; (2) a P3
patient whose elapsed wait exceeds 2 × its maximum recommended wait (30) is
given the escalation chance, and when the coin succeeds its priority value
decreases by exactly one (to P2), it moves from the P3 queue to the end of
the P2 queue, and the global deterioration counter increments. -/
theorem C4_amended_only_P2_P3_checked :
    (∀ (st : EDState) (coins : Nat → Bool),
      (∀ pr, ∀ q ∈ st.waiting.get pr, q.priority = pr) →
      (deteriorationStep st coins).waiting.p4 = st.waiting.p4 ∧
      (deteriorationStep st coins).waiting.p5 = st.waiting.p5) ∧
    (∀ (st : EDState) (p : Patient),
      st.waiting.p3 = [p] →
      p.priority = .P3_URGENT →
      p.start_treatment_time = none →
      60 < st.now - p.arrival_time →
      (deteriorationStep st (fun j => decide (j = 0))).waiting.p3 = [] ∧
      (deteriorationStep st (fun j => decide (j = 0))).waiting.p2 =
        st.waiting.p2 ++ [{ p with priority := .P2_EMERGENT }] ∧
      (deteriorationStep st (fun j => decide (j = 0))).total_deteriorations =
        st.total_deteriorations + 1) := by
  constructor
  · intro st coins hco
    rw [deteriorationStep]
    rcases hq : deterPass coins .P3_URGENT (st, 0) with ⟨st1, k1⟩
    have h1 := deterFold_p45_frame coins .P3_URGENT (Or.inl rfl)
      (st.waiting.get .P3_URGENT) st 0 (fun p hp => hco _ p hp) hco
    rw [deterPass] at hq
    rw [hq] at h1
    obtain ⟨h14, h15, h1co⟩ := h1
    have h2 := deterFold_p45_frame coins .P2_EMERGENT (Or.inr rfl)
      (st1.waiting.get .P2_EMERGENT) st1 k1 (fun p hp => h1co _ p hp) h1co
    obtain ⟨h24, h25, -⟩ := h2
    rw [deterPass]
    simp only [hq]
    constructor
    · rw [h24, h14]
    · rw [h25, h15]
  · intro st p hp3 hpr hstart hwait
    have hwt : p.get_wait_time st.now > p.get_max_wait_time * 2 := by
      simp only [Patient.get_wait_time, hstart, Patient.get_max_wait_time, hpr]
      linarith
    have hd3 := deteriorate_P3 hpr
    have hget3 : st.waiting.get .P3_URGENT = [p] := hp3
    have hne : ({ p with priority := Priority.P2_EMERGENT } : Patient).priority
        ≠ p.priority := by
      rw [hpr]
      simp
    have hstep1 : deterPass (fun j => decide (j = 0)) .P3_URGENT (st, 0) =
        ({ st with
            waiting := (st.waiting.update p.priority
              (removeById · p.id)).update Priority.P2_EMERGENT
              (· ++ [{ p with priority := Priority.P2_EMERGENT }]),
            total_deteriorations := st.total_deteriorations + 1 }, 1) := by
      rw [deterPass, hget3]
      rw [List.foldl_cons, List.foldl_nil]
      simp [deterStep, hwt, hd3, hne]
    have hw1 : ((st.waiting.update p.priority (removeById · p.id)).update
        Priority.P2_EMERGENT
        (· ++ [{ p with priority := Priority.P2_EMERGENT }])) =
        { st.waiting with
            p3 := [],
            p2 := st.waiting.p2 ++ [{ p with priority := Priority.P2_EMERGENT }] } := by
      rw [hpr]
      rcases hwq : st.waiting with ⟨q1, q2, q3, q4, q5⟩
      rw [hwq] at hp3
      simp only at hp3
      simp [WaitingQueues.update, WaitingQueues.get, WaitingQueues.set, hp3,
        removeById]
    rw [hw1] at hstep1
    rw [deteriorationStep, hstep1, deterPass]
    obtain ⟨k2, hk2, -⟩ := deterFold_false_coins _ _ 1 (le_refl 1)
    rw [hk2]
    exact ⟨rfl, rfl, rfl⟩

/-- Witness for C4 amended: one P3 patient (arrived at t=10, checked at
t=100, wait 90 > 60) escalates to exactly P2 and is moved, with the counter
reaching 1; and a check never touches the P4/P5 queues of that state. -/
theorem C4_amended_witness :
    ((deteriorationStep (runOps (edInit 1 1 6 30 0)
        [.arrive 10 .P3_URGENT 60, .collectMetrics 100])
        (fun j => decide (j = 0))).waiting.p3 = [] ∧
     (deteriorationStep (runOps (edInit 1 1 6 30 0)
        [.arrive 10 .P3_URGENT 60, .collectMetrics 100])
        (fun j => decide (j = 0))).waiting.p2 =
       (runOps (edInit 1 1 6 30 0)
        [.arrive 10 .P3_URGENT 60, .collectMetrics 100]).waiting.p2 ++
       [{ (⟨1, 10, .P3_URGENT, .P3_URGENT, 60, none, none, none, none⟩ : Patient)
          with priority := .P2_EMERGENT }] ∧
     (deteriorationStep (runOps (edInit 1 1 6 30 0)
        [.arrive 10 .P3_URGENT 60, .collectMetrics 100])
        (fun j => decide (j = 0))).total_deteriorations =
       (runOps (edInit 1 1 6 30 0)
        [.arrive 10 .P3_URGENT 60, .collectMetrics 100]).total_deteriorations
        + 1) ∧
    (deteriorationStep (runOps (edInit 1 1 6 30 0)
        [.arrive 10 .P3_URGENT 60, .collectMetrics 100])
        (fun _ => true)).waiting.p4 =
      (runOps (edInit 1 1 6 30 0)
        [.arrive 10 .P3_URGENT 60, .collectMetrics 100]).waiting.p4 := by
  refine ⟨C4_amended_only_P2_P3_checked.2 _
      ⟨1, 10, .P3_URGENT, .P3_URGENT, 60, none, none, none, none⟩
      (by decide) (by decide) (by decide) ?_,
    (C4_amended_only_P2_P3_checked.1 _ (fun _ => true)
      (by intro pr; cases pr <;> decide)).1⟩
  have hn : (runOps (edInit 1 1 6 30 0)
      [.arrive 10 .P3_URGENT 60, .collectMetrics 100]).now = 100 := by decide
  rw [hn]
  norm_num

theorem deteriorate_fields (p : Patient) :
    p.deteriorate.id = p.id ∧
    p.deteriorate.arrival_time = p.arrival_time ∧
    p.deteriorate.start_treatment_time = p.start_treatment_time ∧
    p.deteriorate.end_treatment_time = p.end_treatment_time := by
  rw [Patient.deteriorate]
  split <;> exact ⟨rfl, rfl, rfl, rfl⟩

theorem mem_move_flatten {w : WaitingQueues} {prA : Priority} {pid : Nat}
    {p2 q : Patient}
    (hq : q ∈ ((w.update prA (removeById · pid)).update p2.priority
      (· ++ [p2])).flatten) :
    q ∈ w.flatten ∨ q = p2 := by
  rcases WaitingQueues.mem_flatten_iff.mp hq with ⟨pr', hq⟩
  rw [WaitingQueues.get_update] at hq
  by_cases h1 : pr' = p2.priority
  · rw [if_pos h1] at hq
    rcases List.mem_append.mp hq with hq | hq
    · rw [WaitingQueues.get_update] at hq
      by_cases h2 : p2.priority = prA
      · rw [if_pos h2] at hq
        exact Or.inl (WaitingQueues.mem_flatten_of_get (mem_removeById hq))
      · rw [if_neg h2] at hq
        exact Or.inl (WaitingQueues.mem_flatten_of_get hq)
    · exact Or.inr (List.mem_singleton.mp hq)
  · rw [if_neg h1, WaitingQueues.get_update] at hq
    by_cases h2 : pr' = prA
    · rw [if_pos h2] at hq
      exact Or.inl (WaitingQueues.mem_flatten_of_get (mem_removeById hq))
    · rw [if_neg h2] at hq
      exact Or.inl (WaitingQueues.mem_flatten_of_get hq)

theorem TimesOK_now_mono {st : EDState} {t : ℚ} (h : TimesOK st)
    (ht : st.now ≤ t) : TimesOK { st with now := t } := by
  obtain ⟨hw, htr, hd⟩ := h
  refine ⟨fun p hp => ?_, fun p hp => ?_, hd⟩
  · obtain ⟨h1, h2, h3⟩ := hw p hp
    exact ⟨h1, h2, le_trans h3 ht⟩
  · obtain ⟨s, h1, h2, h3, h4⟩ := htr p hp
    exact ⟨s, h1, h2, h3, le_trans h4 ht⟩

theorem deterFold_spec (coins : Nat → Bool) (pr : Priority)
    (P : Patient → Prop) (hPdet : ∀ q, P q → P q.deteriorate) :
    ∀ (s : List Patient) (st : EDState) (k : Nat),
      (qIds s).Nodup →
      (∀ p ∈ s, p.priority = pr ∧ p ∈ st.waiting.get pr) →
      WfWaiting st.waiting →
      (∀ q ∈ st.waiting.flatten, P q) →
      ∃ w2 d2 k2,
        s.foldl (deterStep coins) (st, k) =
          ({ st with waiting := w2, total_deteriorations := d2 }, k2) ∧
        w2.idsM = st.waiting.idsM ∧
        WfWaiting w2 ∧
        (∀ q ∈ w2.flatten, P q) ∧
        st.total_deteriorations ≤ d2 := by
  intro s
  induction s with
  | nil =>
    intro st k _ _ hwf hP
    exact ⟨st.waiting, st.total_deteriorations, k, rfl, rfl, hwf, hP, le_refl _⟩
  | cons p rest ih =>
    intro st k hnd hs hwf hP
    have hpp : p.priority = pr := (hs p (List.mem_cons_self _ _)).1
    have hpm : p ∈ st.waiting.get pr := (hs p (List.mem_cons_self _ _)).2
    have hndr : (qIds rest).Nodup := (List.nodup_cons.mp hnd).2
    have hpnotr : p.id ∉ qIds rest := (List.nodup_cons.mp hnd).1
    rw [List.foldl_cons]
    by_cases hw : p.get_wait_time st.now > p.get_max_wait_time * 2
    · by_cases hc : coins k
      · by_cases hne : p.deteriorate.priority ≠ p.priority
        · have hstep : deterStep coins (st, k) p =
              ({ st with
                  waiting := (st.waiting.update p.priority
                    (removeById · p.id)).update p.deteriorate.priority
                    (· ++ [p.deteriorate]),
                  total_deteriorations := st.total_deteriorations + 1 },
                k + 1) := by
            simp [deterStep, hw, hc, hne]
          rw [hstep]
          set w1 := (st.waiting.update p.priority
            (removeById · p.id)).update p.deteriorate.priority
            (· ++ [p.deteriorate]) with hw1
          have hidmem : p.id ∈ qIds (st.waiting.get p.priority) := by
            rw [hpp]
            exact mem_qIds.mpr ⟨p, hpm, rfl⟩
          have hrm := WaitingQueues.idsM_update_remove st.waiting p.priority
            p.id hidmem
          have happ := WaitingQueues.idsM_update_append
            (st.waiting.update p.priority (removeById · p.id))
            p.deteriorate.priority p.deteriorate
          have hids : w1.idsM = st.waiting.idsM := by
            rw [hw1, happ, (deteriorate_fields p).1, ← hrm]
          have hwf1 : WfWaiting w1 := by
            constructor
            · rw [hids]; exact hwf.1
            · exact coherent_move hwf.2 p.priority p.id p.deteriorate
          have hP1 : ∀ q ∈ w1.flatten, P q := by
            intro q hq
            rcases mem_move_flatten hq with hq | rfl
            · exact hP q hq
            · exact hPdet p (hP p (WaitingQueues.mem_flatten_of_get hpm))
          have hprne : pr ≠ p.deteriorate.priority :=
            fun hcon => hne (hcon.symm.trans hpp.symm)
          have hg1 : w1.get pr = removeById (st.waiting.get pr) p.id := by
            rw [hw1, WaitingQueues.get_update, if_neg hprne,
              WaitingQueues.get_update, if_pos hpp.symm, hpp]
          have hs1 : ∀ q ∈ rest, q.priority = pr ∧ q ∈ w1.get pr := by
            intro q hq
            refine ⟨(hs q (List.mem_cons_of_mem _ hq)).1, ?_⟩
            have hqm : q ∈ st.waiting.get pr := (hs q (List.mem_cons_of_mem _ hq)).2
            have hqne : q.id ≠ p.id := by
              intro hcon
              exact hpnotr (hcon ▸ mem_qIds.mpr ⟨q, hq, rfl⟩)
            rw [hg1]
            exact mem_removeById_of_ne hqm hqne
          obtain ⟨w2, d2, k2, heq, hids2, hwf2, hP2, hd2⟩ :=
            ih { st with waiting := w1, total_deteriorations := st.total_deteriorations + 1 } (k + 1) hndr hs1 hwf1 hP1
          refine ⟨w2, d2, k2, heq, ?_, hwf2, hP2, ?_⟩
          · rw [hids2]
            exact hids
          · exact le_trans (Nat.le_succ _) hd2
        · have hstep : deterStep coins (st, k) p = (st, k + 1) := by
            simp only [not_not] at hne
            simp [deterStep, hw, hc, hne]
          rw [hstep]
          exact ih st (k + 1) hndr (fun q hq => hs q (List.mem_cons_of_mem _ hq))
            hwf hP
      · have hstep : deterStep coins (st, k) p = (st, k + 1) := by
          simp [deterStep, hw, hc]
        rw [hstep]
        exact ih st (k + 1) hndr (fun q hq => hs q (List.mem_cons_of_mem _ hq))
          hwf hP
    · have hstep : deterStep coins (st, k) p = (st, k) := by
        simp [deterStep, hw]
      rw [hstep]
      exact ih st k hndr (fun q hq => hs q (List.mem_cons_of_mem _ hq)) hwf hP

theorem deteriorationStep_spec (st : EDState) (coins : Nat → Bool)
    (P : Patient → Prop) (hPdet : ∀ q, P q → P q.deteriorate)
    (hwf : WfWaiting st.waiting) (hP : ∀ q ∈ st.waiting.flatten, P q) :
    ∃ w2 d2, deteriorationStep st coins =
        { st with waiting := w2, total_deteriorations := d2 } ∧
      w2.idsM = st.waiting.idsM ∧ WfWaiting w2 ∧
      (∀ q ∈ w2.flatten, P q) ∧ st.total_deteriorations ≤ d2 := by
  obtain ⟨wA, dA, kA, heqA, hidsA, hwfA, hPA, hdA⟩ :=
    deterFold_spec coins .P3_URGENT P hPdet (st.waiting.get .P3_URGENT) st 0
      (WaitingQueues.component_nodup hwf.1 .P3_URGENT)
      (fun p hp => ⟨hwf.2 _ p hp, hp⟩) hwf hP
  have h1 : deterPass coins .P3_URGENT (st, 0) =
      ({ st with waiting := wA, total_deteriorations := dA }, kA) := heqA
  obtain ⟨wB, dB, kB, heqB, hidsB, hwfB, hPB, hdB⟩ :=
    deterFold_spec coins .P2_EMERGENT P hPdet
      (({ st with waiting := wA, total_deteriorations := dA } :
        EDState).waiting.get .P2_EMERGENT)
      { st with waiting := wA, total_deteriorations := dA } kA
      (WaitingQueues.component_nodup hwfA.1 .P2_EMERGENT)
      (fun p hp => ⟨hwfA.2 _ p hp, hp⟩) hwfA hPA
  refine ⟨wB, dB, ?_, hidsB.trans hidsA, hwfB, hPB, le_trans hdA hdB⟩
  calc deteriorationStep st coins
      = (deterPass coins .P2_EMERGENT (deterPass coins .P3_URGENT (st, 0))).1 :=
        rfl
    _ = (deterPass coins .P2_EMERGENT
        ({ st with waiting := wA, total_deteriorations := dA }, kA)).1 := by
        rw [h1]
    _ = ((({ st with waiting := wA, total_deteriorations := dA } :
          EDState).waiting.get .P2_EMERGENT).foldl (deterStep coins)
          ({ st with waiting := wA, total_deteriorations := dA }, kA)).1 := rfl
    _ = { st with waiting := wB, total_deteriorations := dB } := by
        rw [heqB]

theorem mem_flatten_update_append {w : WaitingQueues} {pr : Priority}
    {p q : Patient} (hq : q ∈ (w.update pr (· ++ [p])).flatten) :
    q ∈ w.flatten ∨ q = p := by
  rcases WaitingQueues.mem_flatten_iff.mp hq with ⟨pr', hq⟩
  rw [WaitingQueues.get_update] at hq
  by_cases h1 : pr' = pr
  · rw [if_pos h1] at hq
    rcases List.mem_append.mp hq with hq | hq
    · exact Or.inl (WaitingQueues.mem_flatten_of_get hq)
    · exact Or.inr (List.mem_singleton.mp hq)
  · rw [if_neg h1] at hq
    exact Or.inl (WaitingQueues.mem_flatten_of_get hq)

theorem arrivalStep_InvA {st : EDState} (pr : Priority) (dur : ℚ)
    (h : InvA st) : InvA (arrivalStep st pr dur) := by
  obtain ⟨⟨hnd, hco⟩, hbd, hw, htr, hdis⟩ := h
  have hfresh : st.id_counter + 1 ∉ st.waiting.idsM := by
    intro hmem
    exact absurd (hbd _ hmem) (by omega)
  have hwq : (arrivalStep st pr dur).waiting =
      st.waiting.update pr
        (· ++ [(Patient.create st.id_counter st.now pr dur).1]) := rfl
  have hids : (arrivalStep st pr dur).waiting.idsM =
      (st.id_counter + 1) ::ₘ st.waiting.idsM := by
    rw [hwq, WaitingQueues.idsM_update_append]
    have hpid : (Patient.create st.id_counter st.now pr dur).1.id =
        st.id_counter + 1 := rfl
    rw [hpid, add_comm, Multiset.singleton_add]
  refine ⟨⟨?_, ?_⟩, ?_, ?_, ?_, ?_⟩
  · rw [hids]
    exact Multiset.nodup_cons.mpr ⟨hfresh, hnd⟩
  · intro pr' q hq
    rw [hwq, WaitingQueues.get_update] at hq
    by_cases h1 : pr' = pr
    · rw [if_pos h1] at hq
      rcases List.mem_append.mp hq with hq | hq
      · exact hco pr' q (h1 ▸ hq)
      · rw [List.mem_singleton.mp hq, h1]
        rfl
    · rw [if_neg h1] at hq
      exact hco pr' q hq
  · intro i hi
    rw [hids] at hi
    rcases Multiset.mem_cons.mp hi with rfl | hi
    · exact le_refl _
    · exact le_trans (hbd i hi) (Nat.le_succ _)
  · intro q hq
    rw [hwq] at hq
    rcases mem_flatten_update_append hq with hq | rfl
    · exact hw q hq
    · exact ⟨rfl, rfl, le_refl _⟩
  · exact htr
  · exact hdis

theorem assignPatient_frame (st : EDState) (pid did bid : Nat) :
    (assignPatient st pid did bid).doctors.map (·.id) =
      st.doctors.map (·.id) ∧
    (assignPatient st pid did bid).beds.map (·.id) = st.beds.map (·.id) ∧
    (assignPatient st pid did bid).now = st.now ∧
    (assignPatient st pid did bid).total_arrivals = st.total_arrivals ∧
    (assignPatient st pid did bid).id_counter = st.id_counter ∧
    (assignPatient st pid did bid).discharged = st.discharged := by
  cases hx : st.waiting.extract pid with
  | none => simp [assignPatient, hx]
  | some pw =>
    obtain ⟨p, w'⟩ := pw
    cases hd : get_doctor_by_id st.doctors did with
    | none => simp [assignPatient, hx, hd]
    | some d0 =>
      cases hb : get_bed_by_id st.beds bid with
      | none => simp [assignPatient, hx, hd, hb]
      | some b0 =>
        simp only [assignPatient, hx, hd, hb]
        exact ⟨updateDoctorById_ids (fun d => rfl),
          updateBedById_ids (fun b => rfl), trivial, trivial, trivial, trivial⟩

theorem assignPatient_InvA (st : EDState) (pid did bid : Nat)
    (h : InvA st) : InvA (assignPatient st pid did bid) := by
  obtain ⟨⟨hnd, hco⟩, hbd, hw, htr, hdis⟩ := h
  cases hx : st.waiting.extract pid with
  | none =>
    simp only [assignPatient, hx]
    exact ⟨⟨hnd, hco⟩, hbd, hw, htr, hdis⟩
  | some pw =>
    obtain ⟨p, w'⟩ := pw
    obtain ⟨hid, hpfl, hsub, hms⟩ := WaitingQueues.extract_spec hx
    have hwf' : WfWaiting w' := by
      constructor
      · rw [hms] at hnd
        exact (Multiset.nodup_cons.mp hnd).2
      · intro pr q hq
        exact hco pr q (hsub pr q hq)
    have hbd' : ∀ i ∈ w'.idsM, i ≤ st.id_counter := by
      intro i hi
      exact hbd i (hms ▸ Multiset.mem_cons_of_mem hi)
    have hw' : ∀ q ∈ w'.flatten,
        q.start_treatment_time = none ∧ q.end_treatment_time = none ∧
        q.arrival_time ≤ st.now := by
      intro q hq
      rcases WaitingQueues.mem_flatten_iff.mp hq with ⟨pr', hq⟩
      exact hw q (WaitingQueues.mem_flatten_of_get (hsub pr' q hq))
    cases hd : get_doctor_by_id st.doctors did with
    | none =>
      simp only [assignPatient, hx, hd]
      exact ⟨hwf', hbd', hw', htr, hdis⟩
    | some d0 =>
      cases hb : get_bed_by_id st.beds bid with
      | none =>
        simp only [assignPatient, hx, hd, hb]
        exact ⟨hwf', hbd', hw', htr, hdis⟩
      | some b0 =>
        simp only [assignPatient, hx, hd, hb]
        refine ⟨hwf', hbd', hw', ?_, hdis⟩
        intro q hq
        rcases List.mem_append.mp hq with hq | hq
        · exact htr q hq
        · rw [List.mem_singleton.mp hq]
          obtain ⟨h1, h2, h3⟩ := hw p hpfl
          exact ⟨st.now, rfl, h2, h3, le_refl _⟩

theorem assignPatient_conserved (st : EDState) (pid did bid : Nat)
    (hd : did ∈ st.doctors.map (·.id)) (hb : bid ∈ st.beds.map (·.id))
    (hC : Conserved st) : Conserved (assignPatient st pid did bid) := by
  cases hx : st.waiting.extract pid with
  | none => simpa only [assignPatient, hx] using hC
  | some pw =>
    obtain ⟨p, w'⟩ := pw
    obtain ⟨-, -, -, hms⟩ := WaitingQueues.extract_spec hx
    obtain ⟨d0, hd0⟩ := Option.isSome_iff_exists.mp (get_doctor_by_id_isSome.mpr hd)
    obtain ⟨b0, hb0⟩ := Option.isSome_iff_exists.mp (get_bed_by_id_isSome.mpr hb)
    have hcount : st.waiting.count = w'.count + 1 := by
      rw [WaitingQueues.count_eq_card, WaitingQueues.count_eq_card, hms,
        Multiset.card_cons]
    unfold Conserved at hC ⊢
    simp only [assignPatient, hx, hd0, hb0]
    simp only [List.length_append, List.length_cons, List.length_nil]
    omega

theorem end_treatment_fields (p : Patient) (t : ℚ) :
    (p.end_treatment t).start_treatment_time = p.start_treatment_time ∧
    (p.end_treatment t).end_treatment_time = some t ∧
    (p.end_treatment t).arrival_time = p.arrival_time :=
  ⟨rfl, rfl, rfl⟩

theorem treatmentCompleteStep_frame (st : EDState) (pid : Nat) :
    (treatmentCompleteStep st pid).doctors.map (·.id) =
      st.doctors.map (·.id) ∧
    (treatmentCompleteStep st pid).beds.map (·.id) = st.beds.map (·.id) ∧
    (treatmentCompleteStep st pid).now = st.now ∧
    (treatmentCompleteStep st pid).total_arrivals = st.total_arrivals ∧
    (treatmentCompleteStep st pid).id_counter = st.id_counter ∧
    (treatmentCompleteStep st pid).waiting = st.waiting := by
  cases hx : extractById st.treating pid with
  | none => simp [treatmentCompleteStep, hx]
  | some pt =>
    obtain ⟨p, tr2⟩ := pt
    refine ⟨?_, ?_, ?_, ?_, ?_, ?_⟩
    · simp only [treatmentCompleteStep, hx]
      rcases hado : p.assigned_doctor with _ | did0
      · simp only [hado]
      · simp only [hado]
        by_cases hi : (get_doctor_by_id st.doctors did0).isSome
        · rw [if_pos hi]
          exact updateDoctorById_ids (fun d => rfl)
        · rw [if_neg hi]
    · simp only [treatmentCompleteStep, hx]
      rcases habe : p.assigned_bed with _ | bid0
      · simp only [habe]
      · simp only [habe]
        by_cases hi : (get_bed_by_id st.beds bid0).isSome
        · rw [if_pos hi]
          exact updateBedById_ids (fun b => rfl)
        · rw [if_neg hi]
    · simp only [treatmentCompleteStep, hx]
    · simp only [treatmentCompleteStep, hx]
    · simp only [treatmentCompleteStep, hx]
    · simp only [treatmentCompleteStep, hx]

theorem treatmentCompleteStep_InvA (st : EDState) (pid : Nat)
    (h : InvA st) : InvA (treatmentCompleteStep st pid) := by
  obtain ⟨hwf, hbd, hw, htr, hdis⟩ := h
  cases hx : extractById st.treating pid with
  | none =>
    simp only [treatmentCompleteStep, hx]
    exact ⟨hwf, hbd, hw, htr, hdis⟩
  | some pt =>
    obtain ⟨p, tr2⟩ := pt
    obtain ⟨-, hpm, hsub, -⟩ := extractById_spec hx
    simp only [treatmentCompleteStep, hx]
    refine ⟨hwf, hbd, hw, ?_, ?_⟩
    · intro q hq
      exact htr q (hsub q hq)
    · intro q hq
      rcases List.mem_append.mp hq with hq | hq
      · exact hdis q hq
      · rw [List.mem_singleton.mp hq]
        obtain ⟨s, h1, h2, h3, h4⟩ := htr p hpm
        exact ⟨s, st.now, h1, rfl, h3, h4⟩

theorem treatmentCompleteStep_conserved (st : EDState) (pid : Nat)
    (hmem : pid ∈ st.treating.map (·.id)) (hC : Conserved st) :
    Conserved (treatmentCompleteStep st pid) := by
  cases hx : extractById st.treating pid with
  | none =>
    exact absurd (extractById_eq_none.mp hx) (by simpa [qIds] using hmem)
  | some pt =>
    obtain ⟨p, tr2⟩ := pt
    obtain ⟨-, -, -, hms⟩ := extractById_spec hx
    have hlen : st.treating.length = tr2.length + 1 := by
      have hcard := congrArg Multiset.card hms
      simpa [qIds] using hcard
    unfold Conserved at hC ⊢
    simp only [treatmentCompleteStep, hx]
    simp only [List.length_append, List.length_cons, List.length_nil]
    omega

theorem optFold_InvA :
    ∀ (triples : List (Nat × Nat × Nat)) (st : EDState), InvA st →
      InvA (triples.foldl (fun s tr => assignPatient s tr.1 tr.2.1 tr.2.2) st) := by
  intro triples
  induction triples with
  | nil => intro st h; exact h
  | cons tr rest ih =>
    intro st h
    rw [List.foldl_cons]
    exact ih _ (assignPatient_InvA _ _ _ _ h)

theorem optFold_frame :
    ∀ (triples : List (Nat × Nat × Nat)) (st : EDState),
      (triples.foldl (fun s tr => assignPatient s tr.1 tr.2.1 tr.2.2)
        st).doctors.map (·.id) = st.doctors.map (·.id) ∧
      (triples.foldl (fun s tr => assignPatient s tr.1 tr.2.1 tr.2.2)
        st).beds.map (·.id) = st.beds.map (·.id) ∧
      (triples.foldl (fun s tr => assignPatient s tr.1 tr.2.1 tr.2.2)
        st).now = st.now := by
  intro triples
  induction triples with
  | nil => intro st; exact ⟨rfl, rfl, rfl⟩
  | cons tr rest ih =>
    intro st
    rw [List.foldl_cons]
    obtain ⟨f1, f2, f3⟩ := ih (assignPatient st tr.1 tr.2.1 tr.2.2)
    obtain ⟨g1, g2, g3, -, -, -⟩ := assignPatient_frame st tr.1 tr.2.1 tr.2.2
    exact ⟨f1.trans g1, f2.trans g2, f3.trans g3⟩

theorem optFold_conserved :
    ∀ (triples : List (Nat × Nat × Nat)) (st : EDState), Conserved st →
      (∀ tr ∈ triples, tr.2.1 ∈ st.doctors.map (·.id) ∧
        tr.2.2 ∈ st.beds.map (·.id)) →
      Conserved (triples.foldl (fun s tr => assignPatient s tr.1 tr.2.1 tr.2.2)
        st) := by
  intro triples
  induction triples with
  | nil => intro st h _; exact h
  | cons tr rest ih =>
    intro st h hg
    rw [List.foldl_cons]
    obtain ⟨g1, g2, -, -, -, -⟩ := assignPatient_frame st tr.1 tr.2.1 tr.2.2
    refine ih _ (assignPatient_conserved st tr.1 tr.2.1 tr.2.2
      (hg tr (List.mem_cons_self _ _)).1 (hg tr (List.mem_cons_self _ _)).2 h) ?_
    intro tr2 htr2
    rw [g1, g2]
    exact hg tr2 (List.mem_cons_of_mem _ htr2)

theorem arrivalStep_counts (st : EDState) (pr : Priority) (dur : ℚ) :
    (arrivalStep st pr dur).waiting.count = st.waiting.count + 1 ∧
    (arrivalStep st pr dur).treating = st.treating ∧
    (arrivalStep st pr dur).discharged = st.discharged ∧
    (arrivalStep st pr dur).total_arrivals = st.total_arrivals + 1 := by
  refine ⟨?_, rfl, rfl, rfl⟩
  have hwq : (arrivalStep st pr dur).waiting =
      st.waiting.update pr
        (· ++ [(Patient.create st.id_counter st.now pr dur).1]) := rfl
  rw [hwq, WaitingQueues.count_eq_card, WaitingQueues.count_eq_card,
    WaitingQueues.idsM_update_append]
  simp

theorem deteriorate_pred_stable
    (Q : Option ℚ → Option ℚ → ℚ → Prop) :
    ∀ q : Patient, Q q.start_treatment_time q.end_treatment_time q.arrival_time →
      Q q.deteriorate.start_treatment_time q.deteriorate.end_treatment_time
        q.deteriorate.arrival_time := by
  intro q hq
  obtain ⟨-, ha, hs, he⟩ := deteriorate_fields q
  rw [ha, hs, he]
  exact hq

theorem applyOp_InvA (st : EDState) (op : Op) (hv : opValid st op)
    (h : InvA st) :
    InvA (applyOp st op) ∧
    (applyOp st op).doctors.map (·.id) = st.doctors.map (·.id) ∧
    (applyOp st op).beds.map (·.id) = st.beds.map (·.id) := by
  have hnow : ∀ t : ℚ, st.now ≤ t → InvA { st with now := t } := fun t ht =>
    ⟨h.1, h.2.1, TimesOK_now_mono h.2.2 ht⟩
  cases op with
  | arrive t pr dur =>
    obtain ⟨ht, -⟩ := hv
    exact ⟨arrivalStep_InvA pr dur (hnow t ht), rfl, rfl⟩
  | deteriorationCheck t coins =>
    have ht : st.now ≤ t := hv
    have h' := hnow t ht
    obtain ⟨w2, d2, heq, hids2, hwf2, hP2, -⟩ :=
      deteriorationStep_spec { st with now := t } coins
        (fun q => q.start_treatment_time = none ∧ q.end_treatment_time = none ∧
          q.arrival_time ≤ t)
        (fun q hq => deteriorate_pred_stable
          (fun s e a => s = none ∧ e = none ∧ a ≤ t) q hq)
        h'.1 h'.2.2.1
    have happ : applyOp st (.deteriorationCheck t coins) =
        { st with now := t, waiting := w2, total_deteriorations := d2 } := heq
    rw [happ]
    exact ⟨⟨hwf2, fun i hi => h'.2.1 i (hids2 ▸ hi), hP2, h'.2.2.2.1,
      h'.2.2.2.2⟩, rfl, rfl⟩
  | optimize t result =>
    have ht : st.now ≤ t := hv
    cases result with
    | error e => exact ⟨hnow t ht, rfl, rfl⟩
    | ok triples =>
      obtain ⟨f1, f2, -⟩ := optFold_frame triples { st with now := t }
      exact ⟨optFold_InvA triples _ (hnow t ht), f1, f2⟩
  | treatmentComplete t pid =>
    obtain ⟨ht, hpend, hmem⟩ := hv
    have h' : InvA { st with now := t, pending := erasePending st.pending (t, pid) } :=
      ⟨h.1, h.2.1, TimesOK_now_mono h.2.2 ht⟩
    obtain ⟨f1, f2, -, -, -, -⟩ := treatmentCompleteStep_frame
      { st with now := t, pending := erasePending st.pending (t, pid) } pid
    exact ⟨treatmentCompleteStep_InvA _ pid h', f1, f2⟩
  | collectMetrics t =>
    have ht : st.now ≤ t := hv
    exact ⟨hnow t ht, rfl, rfl⟩

theorem applyOp_conserved (st : EDState) (op : Op) (hv : opValid st op)
    (hA : InvA st) (hC : Conserved st)
    (hg : GoodOp (st.doctors.map (·.id)) (st.beds.map (·.id)) op) :
    Conserved (applyOp st op) := by
  cases op with
  | arrive t pr dur =>
    obtain ⟨hcnt, htr, hdis, harr⟩ :=
      arrivalStep_counts { st with now := t } pr dur
    unfold Conserved at hC ⊢
    rw [show applyOp st (.arrive t pr dur) =
      arrivalStep { st with now := t } pr dur from rfl]
    rw [hcnt, htr, hdis, harr]
    show st.waiting.count + 1 + st.treating.length + st.discharged.length =
      st.total_arrivals + 1
    omega
  | deteriorationCheck t coins =>
    obtain ⟨w2, d2, heq, hids2, -, -, -⟩ :=
      deteriorationStep_spec { st with now := t } coins (fun _ => True)
        (fun _ _ => trivial) hA.1 (fun _ _ => trivial)
    have happ : applyOp st (.deteriorationCheck t coins) =
        { st with now := t, waiting := w2, total_deteriorations := d2 } := heq
    unfold Conserved at hC ⊢
    rw [happ]
    show w2.count + st.treating.length + st.discharged.length = st.total_arrivals
    rw [WaitingQueues.count_eq_card, hids2, ← WaitingQueues.count_eq_card]
    exact hC
  | optimize t result =>
    cases result with
    | error e => exact hC
    | ok triples =>
      exact optFold_conserved triples { st with now := t } hC
        (fun tr htr => hg tr htr)
  | treatmentComplete t pid =>
    obtain ⟨ht, hpend, hmem⟩ := hv
    exact treatmentCompleteStep_conserved
      { st with now := t, pending := erasePending st.pending (t, pid) } pid
      hmem hC
  | collectMetrics t => exact hC

theorem runOps_InvA :
    ∀ (ops : List Op) (st : EDState), InvA st → ValidTrace st ops →
      InvA (runOps st ops) := by
  intro ops
  induction ops with
  | nil => intro st h _; exact h
  | cons op rest ih =>
    intro st h hv
    exact ih _ (applyOp_InvA st op hv.1 h).1 hv.2

theorem runOps_conserved :
    ∀ (ops : List Op) (st : EDState), InvA st → Conserved st →
      ValidTrace st ops →
      (∀ op ∈ ops, GoodOp (st.doctors.map (·.id)) (st.beds.map (·.id)) op) →
      Conserved (runOps st ops) := by
  intro ops
  induction ops with
  | nil => intro st _ hC _ _; exact hC
  | cons op rest ih =>
    intro st hA hC hv hg
    obtain ⟨hA', f1, f2⟩ := applyOp_InvA st op hv.1 hA
    refine ih _ hA' (applyOp_conserved st op hv.1 hA hC
      (hg op (List.mem_cons_self _ _))) hv.2 ?_
    intro op2 hop2
    rw [f1, f2]
    exact hg op2 (List.mem_cons_of_mem _ hop2)

theorem edInit_InvA (nd nb : Nat) (r i : ℚ) (c : Nat) :
    InvA (edInit nd nb r i c) := by
  refine ⟨⟨?_, ?_⟩, ?_, ?_, ?_, ?_⟩
  · show Multiset.Nodup ((WaitingQueues.idsM {}))
    simp [WaitingQueues.idsM, qIds]
  · intro pr q hq
    cases pr <;> simp [WaitingQueues.get, edInit] at hq
  · intro j hj
    simp [WaitingQueues.idsM, qIds, edInit] at hj
  · intro q hq
    simp [WaitingQueues.flatten, edInit] at hq
  · intro q hq
    simp [edInit] at hq
  · intro q hq
    simp [edInit] at hq

theorem edInit_conserved (nd nb : Nat) (r i : ℚ) (c : Nat) :
    Conserved (edInit nd nb r i c) := by
  show WaitingQueues.count {} + 0 + 0 = 0
  rfl

/-- C9: along every valid run, waiting patients have no treatment
timestamps; treating patients have exactly a start time, set once at
assignment, with `arrival_time ≤ start_treatment_time ≤ now`; discharged
patients have both timestamps, the end set once at completion, with
`arrival_time ≤ start_treatment_time ≤ end_treatment_time`. -/
theorem C9_timestamp_discipline (nd nb : Nat) (r i : ℚ) (c : Nat)
    (ops : List Op) (hv : ValidTrace (edInit nd nb r i c) ops) :
    TimesOK (runOps (edInit nd nb r i c) ops) :=
  (runOps_InvA ops _ (edInit_InvA nd nb r i c) hv).2.2

/-- Witness for C9 at a concrete run: one patient arrives at 10, is
assigned at 30 and discharged at 120; the timestamp discipline holds in
the final state. -/
theorem C9_witness :
    TimesOK (runOps (edInit 1 1 6 30 0)
      [.arrive 10 .P2_EMERGENT 90, .optimize 30 (.ok [(1, 0, 0)]),
       .treatmentComplete 120 1, .collectMetrics 200]) := by
  refine C9_timestamp_discipline 1 1 6 30 0 _
    ⟨⟨(by norm_num : (0 : ℚ) ≤ 10), by norm_num⟩,
     (by norm_num : (10 : ℚ) ≤ 30),
     ⟨(by norm_num : (30 : ℚ) ≤ 120), ?_, ?_⟩,
     (by norm_num : (120 : ℚ) ≤ 200), trivial⟩
  · exact (show ((120 : ℚ), 1) ∈ [(((30 : ℚ) + 90 : ℚ), (1 : Nat))] by
      norm_num [List.mem_singleton, Prod.ext_iff])
  · exact (show (1 : Nat) ∈ ([1] : List Nat) by decide)

/-- C2 counterexample: the policy returns the triple `(1, 5, 0)` — patient
1 is waiting, but doctor id 5 does not exist in the single-doctor pool.
`_assign_patient` removes the patient from its queue BEFORE looking the
resources up and then returns, dropping the patient: afterwards
waiting = in-treatment = discharged = 0 while total arrivals = 1, and the
next metrics sample records (0,0,0). -/
theorem C2_counterexample :
    ValidTrace (edInit 1 1 6 30 0) c2ops ∧
    c2final.total_arrivals = 1 ∧
    c2final.waiting.count = 0 ∧
    c2final.treating.length = 0 ∧
    c2final.discharged.length = 0 ∧
    c2final.metrics.map
      (fun m => (m.waiting_patients, m.treating_patients,
        m.discharged_patients)) = [(0, 0, 0)] := by
  decide

/-- C2 amended: the conservation law
`waiting + in-treatment + discharged = total arrivals` holds at every
instant of every run PROVIDED every triple the policy returns names a
doctor id and a bed id that exist in the resource pools; a triple with a
waiting patient and a nonexistent doctor or bed id removes the patient
from the waiting queues without placing it anywhere (the patient is
lost). -/
theorem C2_amended_conservation (nd nb : Nat) (r i : ℚ) (c : Nat)
    (ops : List Op) (hv : ValidTrace (edInit nd nb r i c) ops)
    (hg : ∀ op ∈ ops, GoodOp ((edInit nd nb r i c).doctors.map (·.id))
      ((edInit nd nb r i c).beds.map (·.id)) op) :
    Conserved (runOps (edInit nd nb r i c) ops) :=
  runOps_conserved ops _ (edInit_InvA nd nb r i c)
    (edInit_conserved nd nb r i c) hv hg

/-- Witness for C2 amended: a full run (arrival, assignment to existing
doctor 0 and bed 0, completion, metrics sample) preserves the
conservation law. -/
theorem C2_amended_witness :
    Conserved (runOps (edInit 1 1 6 30 0)
      [.arrive 10 .P2_EMERGENT 60, .optimize 30 (.ok [(1, 0, 0)]),
       .treatmentComplete 90 1, .collectMetrics 100]) := by
  have hvt : ValidTrace (edInit 1 1 6 30 0)
      [.arrive 10 .P2_EMERGENT 60, .optimize 30 (.ok [(1, 0, 0)]),
       .treatmentComplete 90 1, .collectMetrics 100] := by
    refine ⟨⟨(by norm_num : (0 : ℚ) ≤ 10), by norm_num⟩,
      (by norm_num : (10 : ℚ) ≤ 30),
      ⟨(by norm_num : (30 : ℚ) ≤ 90), ?_, ?_⟩,
      (by norm_num : (90 : ℚ) ≤ 100), trivial⟩
    · exact (show ((90 : ℚ), 1) ∈ [(((30 : ℚ) + 60 : ℚ), (1 : Nat))] by
        norm_num [List.mem_singleton, Prod.ext_iff])
    · exact (show (1 : Nat) ∈ ([1] : List Nat) by decide)
  refine C2_amended_conservation 1 1 6 30 0 _ hvt ?_
  intro op hop
  simp only [List.mem_cons, List.not_mem_nil, or_false] at hop
  rcases hop with rfl | rfl | rfl | rfl
  · trivial
  · intro tr htr
    simp only [List.mem_singleton] at htr
    subst htr
    exact ⟨by decide, by decide⟩
  · trivial
  · trivial

theorem c5run_state (c0 : Nat) :
    c5run c0 =
      { now := 120, arrival_rate := 6, optimization_interval := 30,
        waiting := {},
        treating := [],
        discharged := [⟨c0 + 1, 10, .P2_EMERGENT, .P2_EMERGENT, 90,
          some 30, some 120, some 0, some 0⟩],
        doctors := [⟨0, "Dr. ".push (Char.ofNat (65 + 0)), true, none, 1, 90⟩],
        beds := [⟨0, true, none, 90⟩],
        metrics := [],
        total_arrivals := 1, total_treated := 1, total_deteriorations := 0,
        id_counter := c0 + 1,
        pending := [] } := by
  have h1 : applyOp (edInit 1 1 6 30 c0) (.arrive 10 .P2_EMERGENT 90) =
      { now := 10, arrival_rate := 6, optimization_interval := 30,
        waiting := { p2 := [⟨c0 + 1, 10, .P2_EMERGENT, .P2_EMERGENT, 90,
          none, none, none, none⟩] },
        treating := [], discharged := [],
        doctors := [⟨0, "Dr. ".push (Char.ofNat (65 + 0)), true, none, 0, 0⟩],
        beds := [⟨0, true, none, 0⟩],
        metrics := [],
        total_arrivals := 1, total_treated := 0, total_deteriorations := 0,
        id_counter := c0 + 1,
        pending := [] } := rfl
  have hops : c5ops c0 =
      [.arrive 10 .P2_EMERGENT 90, .optimize 30 (.ok [(c0 + 1, 0, 0)]),
       .treatmentComplete 120 (c0 + 1)] := by
    rw [c5ops, h1]
    rfl
  have h2 : c5run c0 =
      applyOp (applyOp (applyOp (edInit 1 1 6 30 c0)
        (.arrive 10 .P2_EMERGENT 90))
        (.optimize 30 (.ok [(c0 + 1, 0, 0)])))
        (.treatmentComplete 120 (c0 + 1)) := by
    rw [c5run, hops, runOps, List.foldl_cons, List.foldl_cons,
      List.foldl_cons, List.foldl_nil]
  have h3 : applyOp (applyOp (edInit 1 1 6 30 c0)
      (.arrive 10 .P2_EMERGENT 90)) (.optimize 30 (.ok [(c0 + 1, 0, 0)])) =
      { now := 30, arrival_rate := 6, optimization_interval := 30,
        waiting := {},
        treating := [⟨c0 + 1, 10, .P2_EMERGENT, .P2_EMERGENT, 90,
          some 30, none, some 0, some 0⟩],
        discharged := [],
        doctors := [⟨0, "Dr. ".push (Char.ofNat (65 + 0)), false, some (c0 + 1),
          1, 0⟩],
        beds := [⟨0, false, some (c0 + 1), 0⟩],
        metrics := [],
        total_arrivals := 1, total_treated := 0, total_deteriorations := 0,
        id_counter := c0 + 1,
        pending := [(120, c0 + 1)] } := by
    rw [h1]
    simp only [applyOp, optimizationStep]
    rw [List.foldl_cons, List.foldl_nil]
    norm_num [assignPatient, WaitingQueues.extract, extractById,
      get_doctor_by_id, get_bed_by_id, updateDoctorById, updateBedById,
      Patient.start_treatment, Doctor.assign_patient, Bed.assign_patient,
      WaitingQueues.set]
  rw [h2, h3]
  simp only [applyOp]
  norm_num [treatmentCompleteStep, erasePending, extractById,
    get_doctor_by_id, get_bed_by_id, updateDoctorById, updateBedById,
    Doctor.release_patient, Bed.release_patient, Patient.end_treatment,
    Prod.ext_iff]

theorem c5_result (c0 : Nat) :
    getResults (c5run c0) =
      { metrics := [],
        total_arrivals := 1, total_treated := 1, total_deteriorations := 0,
        discharged_patients := [{
          id := c0 + 1,
          initial_priority := "P2_EMERGENT",
          final_priority := "P2_EMERGENT",
          arrival_time := 10,
          start_treatment := some 30,
          end_treatment := some 120,
          wait_time := 20,
          treatment_duration := 90 }],
        resource_stats := {
          doctors_count := 1,
          doctors_available := 1,
          doctors_utilization_rates := [75],
          doctors_total_patients_treated := 1,
          beds_count := 1,
          beds_available := 1,
          beds_occupancy_rates := [75] } } := by
  rw [c5run_state]
  norm_num [getResults, getStatistics, Patient.get_wait_time, Priority.name,
    Doctor.get_utilization_rate, Bed.get_occupancy_rate, npMean]

/-- C5 counterexample: two complete replications with identical
configuration and the same snapshot-determined policy
(`firstWaitingTriple`), run back to back in one process: the second run
starts from the class counter value 1 left behind by the first
(`Patient._id_counter` is a class attribute and is never reset), so its
patient is numbered 2 instead of 1 and the SimulationResult records are
not identical. Moreover the divergence is NOT always confined to the ids:
under the id-sensitive snapshot policy `pickPatientOne` the first
replication assigns and treats its patient while the second treats nobody
(0 vs 1 available doctors in the results), so the two results differ even
after erasing every patient id. -/
theorem C5_counterexample :
    (c5run 0).id_counter = 1 ∧
    ValidTrace (edInit 1 1 6 30 0) (c5ops 0) ∧
    ValidTrace (edInit 1 1 6 30 1) (c5ops 1) ∧
    (getResults (c5run 0)).discharged_patients.map (·.id) = [1] ∧
    (getResults (c5run 1)).discharged_patients.map (·.id) = [2] ∧
    getResults (c5run 0) ≠ getResults (c5run 1) ∧
    ValidTrace (edInit 1 1 6 30 0) (c5sensOps 0) ∧
    ValidTrace (edInit 1 1 6 30 1) (c5sensOps 1) ∧
    (c5sensRun 0).treating.length = 1 ∧
    (c5sensRun 1).treating.length = 0 ∧
    (getResults (c5sensRun 0)).resource_stats.doctors_available = 0 ∧
    (getResults (c5sensRun 1)).resource_stats.doctors_available = 1 ∧
    SimulationResult.eraseIds (getResults (c5sensRun 0)) ≠
      SimulationResult.eraseIds (getResults (c5sensRun 1)) := by
  refine ⟨by rw [c5run_state], ?_, ?_, ?_, ?_, ?_, by decide, by decide,
    by decide, by decide, by decide, by decide, ?_⟩
  · have hops0 : c5ops 0 =
        [.arrive 10 .P2_EMERGENT 90, .optimize 30 (.ok [(1, 0, 0)]),
         .treatmentComplete 120 1] := rfl
    rw [hops0]
    refine ⟨⟨(by norm_num : (0 : ℚ) ≤ 10), by norm_num⟩,
      (by norm_num : (10 : ℚ) ≤ 30),
      ⟨(by norm_num : (30 : ℚ) ≤ 120), ?_, ?_⟩, trivial⟩
    · exact (show ((120 : ℚ), 1) ∈ [(((30 : ℚ) + 90 : ℚ), (1 : Nat))] by
        norm_num [List.mem_singleton, Prod.ext_iff])
    · exact (show (1 : Nat) ∈ ([1] : List Nat) by decide)
  · have hops1 : c5ops 1 =
        [.arrive 10 .P2_EMERGENT 90, .optimize 30 (.ok [(2, 0, 0)]),
         .treatmentComplete 120 2] := rfl
    rw [hops1]
    refine ⟨⟨(by norm_num : (0 : ℚ) ≤ 10), by norm_num⟩,
      (by norm_num : (10 : ℚ) ≤ 30),
      ⟨(by norm_num : (30 : ℚ) ≤ 120), ?_, ?_⟩, trivial⟩
    · exact (show ((120 : ℚ), 2) ∈ [(((30 : ℚ) + 90 : ℚ), (2 : Nat))] by
        norm_num [List.mem_singleton, Prod.ext_iff])
    · exact (show (2 : Nat) ∈ ([2] : List Nat) by decide)
  · rw [c5_result]
    rfl
  · rw [c5_result]
    rfl
  · rw [c5_result 0, c5_result 1]
    decide
  · intro h
    have h2 : (getResults (c5sensRun 0)).resource_stats.doctors_available =
        (getResults (c5sensRun 1)).resource_stats.doctors_available :=
      congrArg (fun r => r.resource_stats.doctors_available) h
    revert h2
    decide

theorem shiftIds_patient_id (δ : Nat) (p : Patient) :
    (Patient.shiftIds δ p).id = p.id + δ := rfl

theorem shift_deteriorate (δ : Nat) (p : Patient) :
    Patient.shiftIds δ p.deteriorate = (Patient.shiftIds δ p).deteriorate := by
  by_cases h : p.priority.value > 1 <;>
    simp [Patient.deteriorate, Patient.shiftIds, h]

theorem shift_start_treatment (δ : Nat) (p : Patient) (t : ℚ) (did bid : Nat) :
    Patient.shiftIds δ (p.start_treatment t did bid) =
      (Patient.shiftIds δ p).start_treatment t did bid := rfl

theorem shift_end_treatment (δ : Nat) (p : Patient) (t : ℚ) :
    Patient.shiftIds δ (p.end_treatment t) =
      (Patient.shiftIds δ p).end_treatment t := rfl

theorem shift_get_wait_time (δ : Nat) (p : Patient) (t : ℚ) :
    (Patient.shiftIds δ p).get_wait_time t = p.get_wait_time t := rfl

theorem shift_get_max_wait_time (δ : Nat) (p : Patient) :
    (Patient.shiftIds δ p).get_max_wait_time = p.get_max_wait_time := rfl

theorem shift_patient_priority (δ : Nat) (p : Patient) :
    (Patient.shiftIds δ p).priority = p.priority := rfl

theorem shift_assigned_doctor (δ : Nat) (p : Patient) :
    (Patient.shiftIds δ p).assigned_doctor = p.assigned_doctor := rfl

theorem shift_assigned_bed (δ : Nat) (p : Patient) :
    (Patient.shiftIds δ p).assigned_bed = p.assigned_bed := rfl

theorem shift_treatment_duration (δ : Nat) (p : Patient) :
    (Patient.shiftIds δ p).treatment_duration = p.treatment_duration := rfl

theorem shift_assign_patient (δ : Nat) (d : Doctor) (pid : Nat) :
    Doctor.shiftIds δ (d.assign_patient pid) =
      (Doctor.shiftIds δ d).assign_patient (pid + δ) := rfl

theorem shift_release_patient (δ : Nat) (d : Doctor) (t : ℚ) :
    Doctor.shiftIds δ (d.release_patient t) =
      (Doctor.shiftIds δ d).release_patient t := rfl

theorem shift_bed_assign (δ : Nat) (b : Bed) (pid : Nat) :
    Bed.shiftIds δ (b.assign_patient pid) =
      (Bed.shiftIds δ b).assign_patient (pid + δ) := rfl

theorem shift_bed_release (δ : Nat) (b : Bed) (t : ℚ) :
    Bed.shiftIds δ (b.release_patient t) =
      (Bed.shiftIds δ b).release_patient t := rfl

theorem removeById_map_shift (δ : Nat) (l : List Patient) (pid : Nat) :
    removeById (l.map (Patient.shiftIds δ)) (pid + δ) =
      (removeById l pid).map (Patient.shiftIds δ) := by
  induction l with
  | nil => rfl
  | cons p rest ih =>
      simp only [List.map_cons, removeById, shiftIds_patient_id, add_left_inj]
      by_cases h : p.id = pid
      · simp [h]
      · simp [h, ih]

theorem extractById_map_shift (δ : Nat) (l : List Patient) (pid : Nat) :
    extractById (l.map (Patient.shiftIds δ)) (pid + δ) =
      (extractById l pid).map
        (fun pr => (Patient.shiftIds δ pr.1, pr.2.map (Patient.shiftIds δ))) := by
  induction l with
  | nil => rfl
  | cons p rest ih =>
      simp only [List.map_cons, extractById, shiftIds_patient_id, add_left_inj]
      by_cases h : p.id = pid
      · simp [h]
      · simp only [h, if_false, ite_false, if_neg, ih]
        cases hx : extractById rest pid with
        | none => simp
        | some pr => obtain ⟨q, r2⟩ := pr; simp

theorem erasePending_map_shift (δ : Nat) (l : List (ℚ × Nat)) (t : ℚ)
    (pid : Nat) :
    erasePending (l.map (fun e => (e.1, e.2 + δ))) (t, pid + δ) =
      (erasePending l (t, pid)).map (fun e => (e.1, e.2 + δ)) := by
  induction l with
  | nil => rfl
  | cons e rest ih =>
      obtain ⟨a, b⟩ := e
      simp only [List.map_cons, erasePending, Prod.mk.injEq, add_left_inj]
      by_cases h : a = t ∧ b = pid
      · simp [h.1, h.2]
      · simp only [h, if_neg, ite_false]
        simp [h, ih]

theorem get_doctor_map_shift (δ : Nat) (ds : List Doctor) (did : Nat) :
    get_doctor_by_id (ds.map (Doctor.shiftIds δ)) did =
      (get_doctor_by_id ds did).map (Doctor.shiftIds δ) := by
  induction ds with
  | nil => rfl
  | cons d rest ih =>
      simp only [List.map_cons, get_doctor_by_id]
      by_cases h : d.id = did
      · simp [Doctor.shiftIds, h]
      · simp [Doctor.shiftIds, h, ih]

theorem get_bed_map_shift (δ : Nat) (bs : List Bed) (bid : Nat) :
    get_bed_by_id (bs.map (Bed.shiftIds δ)) bid =
      (get_bed_by_id bs bid).map (Bed.shiftIds δ) := by
  induction bs with
  | nil => rfl
  | cons b rest ih =>
      simp only [List.map_cons, get_bed_by_id]
      by_cases h : b.id = bid
      · simp [Bed.shiftIds, h]
      · simp [Bed.shiftIds, h, ih]

theorem updateDoctor_map_shift (δ : Nat) (ds : List Doctor) (did : Nat)
    (f g : Doctor → Doctor)
    (hfg : ∀ d, Doctor.shiftIds δ (f d) = g (Doctor.shiftIds δ d)) :
    updateDoctorById (ds.map (Doctor.shiftIds δ)) did g =
      (updateDoctorById ds did f).map (Doctor.shiftIds δ) := by
  induction ds with
  | nil => rfl
  | cons d rest ih =>
      simp only [List.map_cons, updateDoctorById]
      by_cases h : d.id = did
      · have h2 : (Doctor.shiftIds δ d).id = did := by simp [Doctor.shiftIds, h]
        rw [if_pos h2, if_pos h, List.map_cons, hfg d]
      · simp [Doctor.shiftIds, h, ih]

theorem updateBed_map_shift (δ : Nat) (bs : List Bed) (bid : Nat)
    (f g : Bed → Bed)
    (hfg : ∀ b, Bed.shiftIds δ (f b) = g (Bed.shiftIds δ b)) :
    updateBedById (bs.map (Bed.shiftIds δ)) bid g =
      (updateBedById bs bid f).map (Bed.shiftIds δ) := by
  induction bs with
  | nil => rfl
  | cons b rest ih =>
      simp only [List.map_cons, updateBedById]
      by_cases h : b.id = bid
      · have h2 : (Bed.shiftIds δ b).id = bid := by simp [Bed.shiftIds, h]
        rw [if_pos h2, if_pos h, List.map_cons, hfg b]
      · simp [Bed.shiftIds, h, ih]

theorem filter_avail_map_shift (δ : Nat) (ds : List Doctor) :
    (ds.map (Doctor.shiftIds δ)).filter (·.is_available) =
      (ds.filter (·.is_available)).map (Doctor.shiftIds δ) := by
  induction ds with
  | nil => rfl
  | cons d rest ih =>
      simp only [List.map_cons, List.filter_cons]
      by_cases h : d.is_available <;> simp [Doctor.shiftIds, h, ih]

theorem filter_bed_avail_map_shift (δ : Nat) (bs : List Bed) :
    (bs.map (Bed.shiftIds δ)).filter (·.is_available) =
      (bs.filter (·.is_available)).map (Bed.shiftIds δ) := by
  induction bs with
  | nil => rfl
  | cons b rest ih =>
      simp only [List.map_cons, List.filter_cons]
      by_cases h : b.is_available <;> simp [Bed.shiftIds, h, ih]

theorem shiftIds_get (δ : Nat) (w : WaitingQueues) (pr : Priority) :
    (WaitingQueues.shiftIds δ w).get pr = (w.get pr).map (Patient.shiftIds δ) := by
  cases pr <;> rfl

theorem shiftIds_set (δ : Nat) (w : WaitingQueues) (pr : Priority)
    (l : List Patient) :
    WaitingQueues.shiftIds δ (w.set pr l) =
      (WaitingQueues.shiftIds δ w).set pr (l.map (Patient.shiftIds δ)) := by
  cases pr <;> rfl

theorem shiftIds_flatten (δ : Nat) (w : WaitingQueues) :
    (WaitingQueues.shiftIds δ w).flatten = w.flatten.map (Patient.shiftIds δ) := by
  simp [WaitingQueues.flatten, WaitingQueues.shiftIds]

theorem shiftIds_count (δ : Nat) (w : WaitingQueues) :
    (WaitingQueues.shiftIds δ w).count = w.count := by
  simp [WaitingQueues.count, WaitingQueues.shiftIds]

theorem shiftIds_update_append (δ : Nat) (w : WaitingQueues) (pr : Priority)
    (p : Patient) :
    (WaitingQueues.shiftIds δ w).update pr (· ++ [Patient.shiftIds δ p]) =
      WaitingQueues.shiftIds δ (w.update pr (· ++ [p])) := by
  rw [WaitingQueues.update, WaitingQueues.update, shiftIds_set, shiftIds_get,
    List.map_append]
  rfl

theorem shiftIds_update_remove (δ : Nat) (w : WaitingQueues) (pr : Priority)
    (pid : Nat) :
    (WaitingQueues.shiftIds δ w).update pr (removeById · (pid + δ)) =
      WaitingQueues.shiftIds δ (w.update pr (removeById · pid)) := by
  rw [WaitingQueues.update, WaitingQueues.update, shiftIds_set, shiftIds_get,
    ← removeById_map_shift]

theorem shiftIds_extract (δ : Nat) (w : WaitingQueues) (pid : Nat) :
    (WaitingQueues.shiftIds δ w).extract (pid + δ) =
      (w.extract pid).map
        (fun pw => (Patient.shiftIds δ pw.1, WaitingQueues.shiftIds δ pw.2)) := by
  simp only [WaitingQueues.extract, WaitingQueues.shiftIds,
    extractById_map_shift]
  cases h1 : extractById w.p1 pid with
  | some pr1 => simp [WaitingQueues.shiftIds]
  | none =>
  simp only [Option.map_none]
  cases h2 : extractById w.p2 pid with
  | some pr2 => simp [WaitingQueues.shiftIds]
  | none =>
  simp only [Option.map_none]
  cases h3 : extractById w.p3 pid with
  | some pr3 => simp [WaitingQueues.shiftIds]
  | none =>
  simp only [Option.map_none]
  cases h4 : extractById w.p4 pid with
  | some pr4 => simp [WaitingQueues.shiftIds]
  | none =>
  simp only [Option.map_none]
  cases h5 : extractById w.p5 pid with
  | some pr5 => simp [WaitingQueues.shiftIds]
  | none => simp

theorem arrivalStep_shift (δ : Nat) (st : EDState) (pr : Priority) (dur : ℚ) :
    arrivalStep (EDState.shiftIds δ st) pr dur =
      EDState.shiftIds δ (arrivalStep st pr dur) := by
  have hp : (Patient.create (st.id_counter + δ) st.now pr dur).1 =
      Patient.shiftIds δ (Patient.create st.id_counter st.now pr dur).1 := by
    simp only [Patient.create, Patient.shiftIds, Patient.mk.injEq, and_true,
      true_and]
    omega
  simp only [arrivalStep, EDState.shiftIds]
  simp only [hp, shiftIds_update_append]
  simp only [Patient.create, EDState.mk.injEq, and_true, true_and]
  omega

theorem deterStep_shift (δ : Nat) (coins : Nat → Bool) (st : EDState) (k : Nat)
    (p : Patient) :
    deterStep coins (EDState.shiftIds δ st, k) (Patient.shiftIds δ p) =
      ((deterStep coins (st, k) p).1.shiftIds δ,
        (deterStep coins (st, k) p).2) := by
  simp only [deterStep, shift_get_wait_time, shift_get_max_wait_time]
  have hnow : (EDState.shiftIds δ st).now = st.now := rfl
  rw [hnow]
  by_cases hcond : p.get_wait_time st.now > p.get_max_wait_time * 2
  · rw [if_pos hcond, if_pos hcond]
    by_cases hcoin : coins k
    · rw [if_pos hcoin, if_pos hcoin, ← shift_deteriorate]
      by_cases hch : (Patient.shiftIds δ p.deteriorate).priority ≠
          (Patient.shiftIds δ p).priority
      · rw [if_pos hch, if_pos (by
          simpa [shift_patient_priority] using hch)]
        have hwq : (EDState.shiftIds δ st).waiting =
            WaitingQueues.shiftIds δ st.waiting := rfl
        rw [hwq, shift_patient_priority, shiftIds_patient_id,
          shiftIds_update_remove, shift_patient_priority,
          shiftIds_update_append]
        rfl
      · rw [if_neg hch, if_neg (by
          simpa [shift_patient_priority] using hch)]
    · rw [if_neg hcoin, if_neg hcoin]
  · rw [if_neg hcond, if_neg hcond]

theorem foldl_deterStep_shift (δ : Nat) (coins : Nat → Bool)
    (snap : List Patient) (acc : EDState × Nat) :
    (snap.map (Patient.shiftIds δ)).foldl (deterStep coins)
        (EDState.shiftIds δ acc.1, acc.2) =
      ((snap.foldl (deterStep coins) acc).1.shiftIds δ,
        (snap.foldl (deterStep coins) acc).2) := by
  induction snap generalizing acc with
  | nil => rfl
  | cons p rest ih =>
      simp only [List.map_cons, List.foldl_cons]
      rw [deterStep_shift]
      exact ih (deterStep coins (acc.1, acc.2) p)

theorem deterPass_shift (δ : Nat) (coins : Nat → Bool) (pr : Priority)
    (acc : EDState × Nat) :
    deterPass coins pr (EDState.shiftIds δ acc.1, acc.2) =
      ((deterPass coins pr acc).1.shiftIds δ, (deterPass coins pr acc).2) := by
  simp only [deterPass]
  have hq : (EDState.shiftIds δ acc.1).waiting.get pr =
      (acc.1.waiting.get pr).map (Patient.shiftIds δ) :=
    shiftIds_get δ acc.1.waiting pr
  rw [hq]
  exact foldl_deterStep_shift δ coins (acc.1.waiting.get pr) acc

theorem deteriorationStep_shift (δ : Nat) (st : EDState) (coins : Nat → Bool) :
    deteriorationStep (EDState.shiftIds δ st) coins =
      EDState.shiftIds δ (deteriorationStep st coins) := by
  simp only [deteriorationStep]
  have h1 : deterPass coins .P3_URGENT (EDState.shiftIds δ st, 0) =
      ((deterPass coins .P3_URGENT (st, 0)).1.shiftIds δ,
        (deterPass coins .P3_URGENT (st, 0)).2) :=
    deterPass_shift δ coins .P3_URGENT (st, 0)
  rw [h1, deterPass_shift δ coins .P2_EMERGENT
    (deterPass coins .P3_URGENT (st, 0))]

theorem assignPatient_shift (δ : Nat) (st : EDState) (pid did bid : Nat) :
    assignPatient (EDState.shiftIds δ st) (pid + δ) did bid =
      EDState.shiftIds δ (assignPatient st pid did bid) := by
  simp only [assignPatient]
  have hx : (EDState.shiftIds δ st).waiting.extract (pid + δ) =
      (st.waiting.extract pid).map
        (fun pw => (Patient.shiftIds δ pw.1, WaitingQueues.shiftIds δ pw.2)) :=
    shiftIds_extract δ st.waiting pid
  rw [hx]
  cases hex : st.waiting.extract pid with
  | none => rfl
  | some pw =>
    obtain ⟨p, w⟩ := pw
    simp only [Option.map_some']
    have hd : get_doctor_by_id (EDState.shiftIds δ st).doctors did =
        (get_doctor_by_id st.doctors did).map (Doctor.shiftIds δ) :=
      get_doctor_map_shift δ st.doctors did
    have hb : get_bed_by_id (EDState.shiftIds δ st).beds bid =
        (get_bed_by_id st.beds bid).map (Bed.shiftIds δ) :=
      get_bed_map_shift δ st.beds bid
    rw [hd, hb]
    have hD : updateDoctorById (st.doctors.map (Doctor.shiftIds δ)) did
        (fun d => d.assign_patient (pid + δ)) =
        (updateDoctorById st.doctors did (fun d => d.assign_patient pid)).map
          (Doctor.shiftIds δ) :=
      updateDoctor_map_shift δ st.doctors did _ _
        (fun d => shift_assign_patient δ d pid)
    have hB : updateBedById (st.beds.map (Bed.shiftIds δ)) bid
        (fun b => b.assign_patient (pid + δ)) =
        (updateBedById st.beds bid (fun b => b.assign_patient pid)).map
          (Bed.shiftIds δ) :=
      updateBed_map_shift δ st.beds bid _ _
        (fun b => shift_bed_assign δ b pid)
    cases hdo : get_doctor_by_id st.doctors did with
    | none =>
        cases hbo : get_bed_by_id st.beds bid <;> simp [EDState.shiftIds]
    | some d0 =>
        cases hbo : get_bed_by_id st.beds bid with
        | none => simp [EDState.shiftIds]
        | some b0 =>
            simp only [Option.map_some', EDState.shiftIds, hD, hB,
              List.map_append, List.map_cons, List.map_nil,
              ← shift_start_treatment, shift_treatment_duration,
              shiftIds_patient_id]

theorem optFold_shift (δ : Nat) (triples : List (Nat × Nat × Nat))
    (st : EDState) :
    (triples.map (fun tr => (tr.1 + δ, tr.2.1, tr.2.2))).foldl
        (fun s tr => assignPatient s tr.1 tr.2.1 tr.2.2)
        (EDState.shiftIds δ st) =
      EDState.shiftIds δ
        (triples.foldl (fun s tr => assignPatient s tr.1 tr.2.1 tr.2.2) st) := by
  induction triples generalizing st with
  | nil => rfl
  | cons tr rest ih =>
      simp only [List.map_cons, List.foldl_cons]
      rw [assignPatient_shift]
      exact ih (assignPatient st tr.1 tr.2.1 tr.2.2)

theorem isSome_map_opt {α β : Type _} (f : α → β) (o : Option α) :
    (o.map f).isSome = o.isSome := by cases o <;> rfl

theorem treatmentCompleteStep_shift (δ : Nat) (st : EDState) (pid : Nat) :
    treatmentCompleteStep (EDState.shiftIds δ st) (pid + δ) =
      EDState.shiftIds δ (treatmentCompleteStep st pid) := by
  simp only [treatmentCompleteStep]
  have hx : extractById (EDState.shiftIds δ st).treating (pid + δ) =
      (extractById st.treating pid).map
        (fun pr => (Patient.shiftIds δ pr.1, pr.2.map (Patient.shiftIds δ))) :=
    extractById_map_shift δ st.treating pid
  rw [hx]
  cases hex : extractById st.treating pid with
  | none => rfl
  | some pr =>
    obtain ⟨p, tr2⟩ := pr
    simp only [Option.map_some']
    have hgd : ∀ did, get_doctor_by_id (EDState.shiftIds δ st).doctors did =
        (get_doctor_by_id st.doctors did).map (Doctor.shiftIds δ) :=
      fun did => get_doctor_map_shift δ st.doctors did
    have hgb : ∀ bid, get_bed_by_id (EDState.shiftIds δ st).beds bid =
        (get_bed_by_id st.beds bid).map (Bed.shiftIds δ) :=
      fun bid => get_bed_map_shift δ st.beds bid
    have hDrel : ∀ did, updateDoctorById (st.doctors.map (Doctor.shiftIds δ))
        did (fun d => d.release_patient p.treatment_duration) =
        (updateDoctorById st.doctors did
          (fun d => d.release_patient p.treatment_duration)).map
            (Doctor.shiftIds δ) :=
      fun did => updateDoctor_map_shift δ st.doctors did _ _
        (fun d => shift_release_patient δ d p.treatment_duration)
    have hBrel : ∀ bid, updateBedById (st.beds.map (Bed.shiftIds δ))
        bid (fun b => b.release_patient p.treatment_duration) =
        (updateBedById st.beds bid
          (fun b => b.release_patient p.treatment_duration)).map
            (Bed.shiftIds δ) :=
      fun bid => updateBed_map_shift δ st.beds bid _ _
        (fun b => shift_bed_release δ b p.treatment_duration)
    cases had : p.assigned_doctor with
    | none =>
      cases hab : p.assigned_bed with
      | none =>
        simp only [shift_assigned_doctor, shift_assigned_bed, had, hab,
          EDState.shiftIds, List.map_append, List.map_cons, List.map_nil,
          ← shift_end_treatment]
      | some bid =>
        simp only [shift_assigned_doctor, shift_assigned_bed, had, hab,
          hgb bid, isSome_map_opt]
        by_cases hib : (get_bed_by_id st.beds bid).isSome <;>
          simp [hib, shift_treatment_duration, EDState.shiftIds, hBrel bid,
            List.map_append, ← shift_end_treatment]
    | some did =>
      cases hab : p.assigned_bed with
      | none =>
        simp only [shift_assigned_doctor, shift_assigned_bed, had, hab,
          hgd did, isSome_map_opt]
        by_cases hid : (get_doctor_by_id st.doctors did).isSome <;>
          simp [hid, shift_treatment_duration, EDState.shiftIds, hDrel did,
            List.map_append, ← shift_end_treatment]
      | some bid =>
        simp only [shift_assigned_doctor, shift_assigned_bed, had, hab,
          hgd did, hgb bid, isSome_map_opt]
        by_cases hid : (get_doctor_by_id st.doctors did).isSome <;>
          by_cases hib : (get_bed_by_id st.beds bid).isSome <;>
            simp [hid, hib, shift_treatment_duration, EDState.shiftIds,
              hDrel did, hBrel bid, List.map_append, ← shift_end_treatment]

theorem map_util_shift (δ : Nat) (t : ℚ) (ds : List Doctor) :
    (ds.map (Doctor.shiftIds δ)).map (fun d => d.get_utilization_rate t) =
      ds.map (fun d => d.get_utilization_rate t) := by
  rw [List.map_map]; rfl

theorem map_occ_shift (δ : Nat) (t : ℚ) (bs : List Bed) :
    (bs.map (Bed.shiftIds δ)).map (fun b => b.get_occupancy_rate t) =
      bs.map (fun b => b.get_occupancy_rate t) := by
  rw [List.map_map]; rfl

theorem map_tpt_shift (δ : Nat) (ds : List Doctor) :
    (ds.map (Doctor.shiftIds δ)).map (fun d => d.total_patients_treated) =
      ds.map (fun d => d.total_patients_treated) := by
  rw [List.map_map]; rfl

theorem map_wait_shift (δ : Nat) (t : ℚ) (l : List Patient) :
    (l.map (Patient.shiftIds δ)).map (fun p => p.get_wait_time t) =
      l.map (fun p => p.get_wait_time t) := by
  rw [List.map_map]; rfl

theorem getStatistics_shift (δ : Nat) (st : EDState) :
    getStatistics (EDState.shiftIds δ st) = getStatistics st := by
  simp only [getStatistics, EDState.shiftIds]
  simp only [List.length_map, filter_avail_map_shift,
    filter_bed_avail_map_shift, map_util_shift, map_occ_shift, map_tpt_shift]

theorem collectMetricsStep_shift (δ : Nat) (st : EDState) :
    collectMetricsStep (EDState.shiftIds δ st) =
      EDState.shiftIds δ (collectMetricsStep st) := by
  simp only [collectMetricsStep, getStatistics_shift]
  simp only [EDState.shiftIds, shiftIds_count, shiftIds_flatten,
    map_wait_shift, List.length_map]

theorem applyOp_shift (δ : Nat) (st : EDState) (op : Op) :
    applyOp (EDState.shiftIds δ st) (Op.shiftIds δ op) =
      EDState.shiftIds δ (applyOp st op) := by
  have hnow : ∀ t : ℚ, ({ EDState.shiftIds δ st with now := t }) =
      EDState.shiftIds δ { st with now := t } := fun t => rfl
  cases op with
  | arrive t pr dur =>
      simp only [Op.shiftIds, applyOp]
      rw [hnow t, arrivalStep_shift]
  | deteriorationCheck t coins =>
      simp only [Op.shiftIds, applyOp]
      rw [hnow t, deteriorationStep_shift]
  | optimize t res =>
      cases res with
      | error e =>
          simp only [Op.shiftIds, applyOp, optimizationStep]
          rw [hnow t]
      | ok triples =>
          simp only [Op.shiftIds, applyOp, optimizationStep]
          rw [hnow t]
          exact optFold_shift δ triples { st with now := t }
  | treatmentComplete t pid =>
      simp only [Op.shiftIds, applyOp]
      have hpend : ({ EDState.shiftIds δ st with now := t, pending := erasePending (EDState.shiftIds δ st).pending (t, pid + δ) }) = EDState.shiftIds δ { st with now := t, pending := erasePending st.pending (t, pid) } := by
        have h1 : (EDState.shiftIds δ st).pending =
            st.pending.map (fun e => (e.1, e.2 + δ)) := rfl
        rw [h1, erasePending_map_shift]
        rfl
      rw [hpend, treatmentCompleteStep_shift]
  | collectMetrics t =>
      simp only [Op.shiftIds, applyOp]
      rw [hnow t, collectMetricsStep_shift]

theorem runOps_shift (δ : Nat) (ops : List Op) (st : EDState) :
    runOps (EDState.shiftIds δ st) (ops.map (Op.shiftIds δ)) =
      EDState.shiftIds δ (runOps st ops) := by
  induction ops generalizing st with
  | nil => rfl
  | cons op rest ih =>
      simp only [runOps, List.map_cons, List.foldl_cons]
      rw [applyOp_shift]
      exact ih (applyOp st op)

theorem opValid_shift (δ : Nat) (st : EDState) (op : Op) (h : opValid st op) :
    opValid (EDState.shiftIds δ st) (Op.shiftIds δ op) := by
  cases op with
  | arrive t pr dur => exact h
  | deteriorationCheck t coins => exact h
  | collectMetrics t => exact h
  | optimize t res => cases res with
      | error e => exact h
      | ok triples => exact h
  | treatmentComplete t pid =>
      obtain ⟨h1, h2, h3⟩ := h
      refine ⟨h1, ?_, ?_⟩
      · show (t, pid + δ) ∈ (EDState.shiftIds δ st).pending
        have hpd : (EDState.shiftIds δ st).pending =
            st.pending.map (fun e => (e.1, e.2 + δ)) := rfl
        rw [hpd]
        exact List.mem_map_of_mem _ h2
      · show pid + δ ∈ ((EDState.shiftIds δ st).treating).map (·.id)
        have htr : (EDState.shiftIds δ st).treating =
            st.treating.map (Patient.shiftIds δ) := rfl
        rw [htr, List.map_map]
        rcases List.mem_map.mp h3 with ⟨p, hp, hpid⟩
        exact List.mem_map.mpr ⟨p, hp, by simp [Patient.shiftIds, hpid]⟩

theorem ValidTrace_shift (δ : Nat) (ops : List Op) (st : EDState)
    (h : ValidTrace st ops) :
    ValidTrace (EDState.shiftIds δ st) (ops.map (Op.shiftIds δ)) := by
  induction ops generalizing st with
  | nil => trivial
  | cons op rest ih =>
      obtain ⟨h1, h2⟩ := h
      refine ⟨opValid_shift δ st op h1, ?_⟩
      rw [applyOp_shift]
      exact ih (applyOp st op) h2

theorem edInit_shift (δ : Nat) (nd nb : Nat) (r i : ℚ) (c : Nat) :
    edInit nd nb r i (c + δ) = EDState.shiftIds δ (edInit nd nb r i c) := by
  simp only [edInit, EDState.shiftIds, List.map_map]
  rfl

theorem eraseIds_getResults_shift (δ : Nat) (st : EDState) :
    SimulationResult.eraseIds (getResults (EDState.shiftIds δ st)) =
      SimulationResult.eraseIds (getResults st) := by
  simp only [getResults, SimulationResult.eraseIds, getStatistics_shift]
  simp only [EDState.shiftIds, List.map_map]
  rfl

/-- C5 amended: `Patient._id_counter` is a class attribute that
`ExperimentRunner.run_experiment` never resets between the sequential
replications of one process, so a later replication starts with the
counter `δ` higher than an earlier one and behaves exactly like it with
every patient id shifted by `δ`: for EVERY configuration and EVERY event
sequence, running the id-shifted events from the shifted counter produces
the id-shifted final state, a valid trace stays valid, and the
`get_results` records agree once the patient ids are erased. Hence two
replications with identical seed, configuration and an id-insensitive
snapshot policy produce byte-identical results exactly when their starting
counters are equal (e.g. each in a fresh process) and differ in the
patient ids otherwise; an id-SENSITIVE policy reads the shifted snapshot
and can make the runs diverge beyond the ids (see the counterexample). -/
theorem C5_amended_id_shift (nd nb : Nat) (r i : ℚ) (c0 δ : Nat)
    (ops : List Op) :
    runOps (edInit nd nb r i (c0 + δ)) (ops.map (Op.shiftIds δ)) =
      EDState.shiftIds δ (runOps (edInit nd nb r i c0) ops) ∧
    SimulationResult.eraseIds (getResults
        (runOps (edInit nd nb r i (c0 + δ)) (ops.map (Op.shiftIds δ)))) =
      SimulationResult.eraseIds
        (getResults (runOps (edInit nd nb r i c0) ops)) ∧
    (ValidTrace (edInit nd nb r i c0) ops →
      ValidTrace (edInit nd nb r i (c0 + δ)) (ops.map (Op.shiftIds δ))) := by
  have he := edInit_shift δ nd nb r i c0
  refine ⟨?_, ?_, ?_⟩
  · rw [he, runOps_shift]
  · rw [he, runOps_shift, eraseIds_getResults_shift]
  · intro hv
    rw [he]
    exact ValidTrace_shift δ ops _ hv

/-- Witness for C5 amended: replications 1 (counter 0) and 2 (counter 1)
of the counterexample scenario. The id-shifted events of the first
replication are exactly the events the second fires, the second run ends
in the first run's final state with every patient id shifted by 1, the two
results agree after erasing ids, and the second trace is valid. -/
theorem C5_amended_witness :
    runOps (edInit 1 1 6 30 (0 + 1))
        (([.arrive 10 .P2_EMERGENT 90, .optimize 30 (.ok [(1, 0, 0)]),
           .treatmentComplete 120 1] : List Op).map (Op.shiftIds 1)) =
      EDState.shiftIds 1 (runOps (edInit 1 1 6 30 0)
        [.arrive 10 .P2_EMERGENT 90, .optimize 30 (.ok [(1, 0, 0)]),
         .treatmentComplete 120 1]) ∧
    SimulationResult.eraseIds (getResults (runOps (edInit 1 1 6 30 (0 + 1))
        (([.arrive 10 .P2_EMERGENT 90, .optimize 30 (.ok [(1, 0, 0)]),
           .treatmentComplete 120 1] : List Op).map (Op.shiftIds 1)))) =
      SimulationResult.eraseIds (getResults (runOps (edInit 1 1 6 30 0)
        [.arrive 10 .P2_EMERGENT 90, .optimize 30 (.ok [(1, 0, 0)]),
         .treatmentComplete 120 1])) ∧
    ValidTrace (edInit 1 1 6 30 (0 + 1))
      (([.arrive 10 .P2_EMERGENT 90, .optimize 30 (.ok [(1, 0, 0)]),
         .treatmentComplete 120 1] : List Op).map (Op.shiftIds 1)) := by
  have hv : ValidTrace (edInit 1 1 6 30 0)
      [.arrive 10 .P2_EMERGENT 90, .optimize 30 (.ok [(1, 0, 0)]),
       .treatmentComplete 120 1] := by
    refine ⟨⟨(by norm_num : (0 : ℚ) ≤ 10), by norm_num⟩,
      (by norm_num : (10 : ℚ) ≤ 30),
      ⟨(by norm_num : (30 : ℚ) ≤ 120), ?_, ?_⟩, trivial⟩
    · exact (show ((120 : ℚ), 1) ∈ [(((30 : ℚ) + 90 : ℚ), (1 : Nat))] by
        norm_num [List.mem_singleton, Prod.ext_iff])
    · exact (show (1 : Nat) ∈ ([1] : List Nat) by decide)
  exact ⟨(C5_amended_id_shift 1 1 6 30 0 1 _).1,
    (C5_amended_id_shift 1 1 6 30 0 1 _).2.1,
    (C5_amended_id_shift 1 1 6 30 0 1 _).2.2 hv⟩
